import Mathlib

/-!
Verification of the pyxyzzy game server core against its specification.

The definitions below are a shallow embedding of the Python sources:
`pyxyzzy/game.py` (decks, rounds, players, the `Game` state machine),
`pyxyzzy/server.py` (request handlers), `pyxyzzy/config.py` (validation
helpers) and `pyxyzzy/utils/searchablelist.py` (the indexed list).

Modelling conventions:
- Python exceptions are modelled by the `PyError` type; functions that can
  raise return `Except`.  Game operations return `Except (PyError × Game) Game`
  where the error also carries the game state at the moment of the raise, so
  that "the state is unchanged on failure" is a provable statement rather
  than a modelling artifact.
- UUIDs are opaque identifiers, modelled as `Nat`.
- `random.shuffle` / `random.choice` are modelled by explicit parameters
  (a shuffle function constrained to be a permutation, an index into the
  candidate list).
- Python `dict`s are modelled as association lists with explicit
  lookup/set/erase operations matching `d[k]`, `d[k] = v`, `del d[k]`.
-/

/-- Model of the Python exceptions raised by the core.  `gameError` covers
`GameError` and its subclasses (`InvalidGameState`, and `InvalidRequest`
whose code is always `"invalid_request"`); the other constructors are the
builtin exceptions the code can raise. -/
inductive PyError where
  | gameError (code : String) (description : String)
  | valueError (msg : String)
  | lookupError (msg : String)
  | keyError (msg : String)
  | indexError (msg : String)
  deriving DecidableEq, Repr

/-- The wire error code carried by a `GameError`; builtin exceptions carry
no game error code. -/
def PyError.code : PyError → Option String
  | .gameError c _ => some c
  | _ => none

/-- The `error` field of the reply produced by `GameConnection._handle_request`:
a `GameError`'s own code, and `"internal_error"` for any other exception. -/
def PyError.replyCode : PyError → String
  | .gameError c _ => c
  | _ => "internal_error"

/-- `pyxyzzy.utils.single`: the unique element of a list, or `ValueError`. -/
def single {α : Type} : List α → Except PyError α
  | [] => .error (.valueError "expected a single value from iterator, got none")
  | [x] => .ok x
  | _ :: _ :: _ => .error (.valueError "expected a single value from iterator, got more")

/-- `Deck` from `game.py`: `_deck` is the draw pile (top of stack at the end
of the list, as `list.pop()` pops the last element), `_discarded` is the
discard pile. -/
structure Deck (α : Type) where
  deck : List α
  discarded : List α
  deriving DecidableEq, Repr

/-- `Deck.total_cards`: number of cards in the deck plus the discard pile. -/
def Deck.total_cards (d : Deck α) : Nat :=
  d.discarded.length + d.deck.length

/-- `Deck.reshuffle`: extend `_deck` with `_discarded`, clear `_discarded`,
shuffle `_deck`.  `random.shuffle` is modelled by the `shuffleFn` parameter. -/
def Deck.reshuffle (shuffleFn : List α → List α) (d : Deck α) : Deck α :=
  { deck := shuffleFn (d.deck ++ d.discarded), discarded := [] }

/-- `Deck.discard` for a single card: push onto the discard pile.  The
replacement of played blank white cards with freshly minted ones is modelled
by the `discardOf` parameter (the identity for black cards). -/
def Deck.discardOne (discardOf : α → α) (card : α) (d : Deck α) : Deck α :=
  { d with discarded := d.discarded ++ [discardOf card] }

/-- `Deck.draw`: pop the top of `_deck`; if `_deck` is empty, `reshuffle`
first; if it is still empty, raise `LookupError("no cards in deck")`.  With
`discardFlag` set the drawn card is also pushed to the discard pile. -/
def Deck.draw (shuffleFn : List α → List α) (discardOf : α → α) (discardFlag : Bool)
    (d : Deck α) : Except PyError (α × Deck α) :=
  let d1 := if d.deck.isEmpty then d.reshuffle shuffleFn else d
  match d1.deck.getLast? with
  | none => .error (.lookupError "no cards in deck")
  | some card =>
    let d2 : Deck α := { deck := d1.deck.dropLast, discarded := d1.discarded }
    .ok (card, if discardFlag then d2.discardOne discardOf card else d2)

abbrev UserID := Nat

abbrev WhiteCardID := Nat

abbrev RoundID := Nat

/-- `BlackCard` from `game.py` (the pack name plays no role in the claims'
operations and is omitted). -/
structure BlackCard where
  text : String
  pick_count : Nat
  draw_count : Nat
  deriving DecidableEq, Repr

/-- `WhiteCard` from `game.py`: `slot_id` identifies the physical card. -/
structure WhiteCard where
  slot_id : WhiteCardID
  text : Option String
  blank : Bool
  deriving DecidableEq, Repr

/-- `WhiteCard.write_blank`: writing text onto a card fails with
`InvalidGameState("invalid_white_cards", ...)` unless the card is a blank;
otherwise it returns a new card with the same `slot_id`. -/
def WhiteCard.write_blank (c : WhiteCard) (text : String) : Except PyError WhiteCard :=
  if c.blank then .ok { slot_id := c.slot_id, text := some text, blank := true }
  else .error (.gameError "invalid_white_cards" "card is not a blank")

/-- `Player` from `game.py`.  `id` is the underlying user's id (`Player.id`
delegates to `user.id`, and `Player.__eq__` compares the users, so players
are identified by user id throughout). -/
structure Player where
  id : UserID
  name : String
  hand : List WhiteCard
  score : Nat
  idle_rounds : Nat
  deriving DecidableEq, Repr

/-- Python `d[k]` lookup on a dict modelled as an association list. -/
def dictLookup {κ ν : Type} [DecidableEq κ] (k : κ) : List (κ × ν) → Option ν
  | [] => none
  | (k', v) :: rest => if k' = k then some v else dictLookup k rest

/-- Python `d[k] = v`: overwrite the binding in place if the key is present,
append it otherwise (Python dicts keep insertion order on overwrite). -/
def dictSet {κ ν : Type} [DecidableEq κ] (k : κ) (v : ν) (d : List (κ × ν)) :
    List (κ × ν) :=
  if (dictLookup k d).isSome then d.map (fun kv => if kv.1 = k then (k, v) else kv)
  else d ++ [(k, v)]

/-- Python `del d[k]` on a dict with unique keys: drop the binding. -/
def dictErase {κ ν : Type} [DecidableEq κ] (k : κ) (d : List (κ × ν)) : List (κ × ν) :=
  d.filter (fun kv => kv.1 ≠ k)

/-- `Round` from `game.py`.  `card_czar` stores the czar's user id (see
`Player`); `white_cards` is the insertion-ordered dict from player id to the
cards that player played. -/
structure Round where
  card_czar : UserID
  black_card : BlackCard
  white_cards : List (UserID × List WhiteCard)
  winner : Option UserID
  id : RoundID
  deriving DecidableEq, Repr

/-- `Round.needs_to_play`: the player is not the czar, has a non-empty hand
and has not yet played this round. -/
def Round.needs_to_play (r : Round) (p : Player) : Bool :=
  (p.id != r.card_czar) && (!p.hand.isEmpty) && (dictLookup p.id r.white_cards).isNone

/-- `GameState` from `game.py`. -/
inductive GameState where
  | not_started
  | playing
  | judging
  | round_ended
  | game_ended
  deriving DecidableEq, Repr

/-- The scalar fields of `GameOptions` from `game.py` (the card-pack tuple is
not needed by any claim). -/
structure GameOptions where
  game_title : String
  public : Bool
  think_time : Nat
  round_end_time : Nat
  idle_rounds : Nat
  blank_cards : Nat
  player_limit : Nat
  point_limit : Nat
  password : String
  deriving DecidableEq, Repr

/-- `Game` from `game.py`: the state machine's data.  `players` is the
`SearchableList` with its unique `id` index, modelled as a list whose
entries have pairwise distinct ids where that matters. -/
structure Game where
  code : String
  options : GameOptions
  rounds : List Round
  players : List Player
  state : GameState
  black_deck : Deck BlackCard
  white_deck : Deck WhiteCard
  deriving DecidableEq, Repr

/-- `Game.game_running`: the state is neither `not_started` nor `game_ended`. -/
def Game.game_running (g : Game) : Bool :=
  g.state != GameState.not_started && g.state != GameState.game_ended

/-- `Game.current_round`: the last round while the game is ongoing.  (In the
states where the code reads it, `rounds` is non-empty.) -/
def Game.current_round (g : Game) : Option Round :=
  if g.game_running then g.rounds.getLast? else none

/-- `Game._check_all_played`: in `playing` state, move to `judging` once no
player still needs to play.  (The `none` branch of `current_round` is
unreachable: in `playing` state `rounds` is never empty.) -/
def Game.check_all_played (g : Game) : Game :=
  if g.state = GameState.playing then
    match g.current_round with
    | some r =>
      if g.players.any (fun p => r.needs_to_play p) then g
      else { g with state := GameState.judging }
    | none => g
  else g

/-- The czar-selection step of `Game._start_next_round` (game.py lines
514-521): scan `rounds` newest to oldest for a round whose czar is still in
`players` (player equality is user-id equality); if one is found the new
czar is the player at `(index of that czar + 1) % len(players)`, otherwise
`random.choice(players)` picks an element — modelled by the index `pick`,
which `choice` draws uniformly. -/
def selectCzar (rounds : List Round) (players : List Player) (pick : Nat) : Option Player :=
  match rounds.reverse.find? (fun r => players.any (fun p => p.id == r.card_czar)) with
  | some r =>
    players.get? ((players.findIdx (fun p => p.id == r.card_czar) + 1) % players.length)
  | none => players.get? pick

/-- A player record with the given id and hand, used in concrete instances. -/
def samplePlayer (i : Nat) (hand : List WhiteCard) : Player :=
  { id := i, name := "p", hand := hand, score := 0, idle_rounds := 0 }

/-- An options record used in concrete instances. -/
def sampleOptions : GameOptions :=
  { game_title := "", public := true, think_time := 5, round_end_time := 5,
    idle_rounds := 2, blank_cards := 0, player_limit := 10, point_limit := 5,
    password := "" }

/-- The password gate of `GameConnection._handle_join_game` (server.py lines
265-270): run only when the game's password option is non-empty; a missing
password field is read as `""`.  Python `str.upper` is modelled by the
`upper` parameter, applied to both sides exactly as in the source. -/
def joinGamePasswordCheck (upper : String → String) (gamePassword : String)
    (supplied : Option String) : Except PyError Unit :=
  if gamePassword ≠ "" then
    let password := supplied.getD ""
    if password = "" then
      .error (.gameError "password_required" "a password is required to join the game")
    else if upper gamePassword ≠ upper password then
      .error (.gameError "password_incorrect" "incorrect password")
    else .ok ()
  else .ok ()

/-- Python `str.upper` restricted to ASCII, used for concrete instances. -/
def pyUpper (s : String) : String := String.mk (s.data.map Char.toUpper)

/-- Python `str.strip()` for whitespace, as a character-list computation so
that concrete instances evaluate inside the kernel. -/
def pyStrip (s : String) : String :=
  String.mk ((s.data.dropWhile Char.isWhitespace).reverse.dropWhile Char.isWhitespace).reverse

/-- The fields of the JSON object built by `Game.game_list_json`. -/
structure GameListEntry where
  code : String
  title : String
  players : Nat
  player_limit : Nat
  passworded : Bool
  deriving DecidableEq, Repr

/-- `Game.game_list_json` (game.py lines 725-735): strip the title, fall back
to the configured default title with `{USER}` replaced by the host's name
(`titleDefault` is `config.game.title.default`; the host is `players[0]`,
and a game with no players does not exist on the server). -/
def Game.game_list_json (titleDefault : String) (g : Game) : GameListEntry :=
  let stripped := pyStrip g.options.game_title
  let title := if stripped = "" then
      titleDefault.replace "{USER}" (match g.players.head? with | some p => p.name | none => "")
    else stripped
  { code := g.code
    title := title
    players := g.players.length
    player_limit := g.options.player_limit
    passworded := g.options.password != "" }

/-- `GameConnection._handle_game_list` (server.py lines 238-242): render every
public game.  The handler has no `require_not_ingame` decorator and never
reads the requester, modelled by the unused `_requesterInGame` argument. -/
def handle_game_list (titleDefault : String) (games : List Game)
    (_requesterInGame : Bool) : List GameListEntry :=
  (games.filter (fun g => g.options.public)).map (Game.game_list_json titleDefault)

/-- A concrete game used in instances: publicity and password as given. -/
def sampleGame (pub : Bool) (pw : String) : Game :=
  { code := "ABCD"
    options := { sampleOptions with public := pub, password := pw }
    rounds := []
    players := [samplePlayer 0 []]
    state := GameState.not_started
    black_deck := { deck := [], discarded := [] }
    white_deck := { deck := [], discarded := [] } }

/-- `BlankCardConfig.is_valid_text` (config.py lines 183-188): strip the
text, require `1 <= len <= max_length`, then check the regex blacklist —
the blacklist check is modelled by the `blacklistOk` predicate (the regex
engine is an external collaborator). -/
def is_valid_text (max_length : Nat) (blacklistOk : String → Bool) (text : String) : Bool :=
  let t := pyStrip text
  (1 ≤ t.length && t.length ≤ max_length) && blacklistOk t

/-- The card-validation loop of `GameConnection._handle_play_white`
(server.py lines 336-347): any card whose `text` field fails
`is_valid_text` raises `InvalidRequest("invalid cards")`, whose error code
is `invalid_request`; valid texts are stripped.  UUID parsing and JSON type
checks are abstracted away: inputs arrive already typed. -/
def parsePlayCards (max_length : Nat) (blacklistOk : String → Bool) :
    List (WhiteCardID × Option String) → Except PyError (List (WhiteCardID × Option String))
  | [] => .ok []
  | (slot, text) :: rest =>
    match text with
    | none =>
      match parsePlayCards max_length blacklistOk rest with
      | .ok parsed => .ok ((slot, none) :: parsed)
      | .error e => .error e
    | some t =>
      if is_valid_text max_length blacklistOk t then
        match parsePlayCards max_length blacklistOk rest with
        | .ok parsed => .ok ((slot, some (pyStrip t)) :: parsed)
        | .error e => .error e
      else .error (.gameError "invalid_request" "invalid cards")

/-- The fields of `User` consulted by `Game.add_player`. -/
structure UserRef where
  id : UserID
  name : String
  in_game : Bool
  connected : Bool
  deriving DecidableEq, Repr

/-- `Game.add_player` (game.py lines 391-404): fail `user_in_game` if the
user is in any game, `game_full` at the player limit, and, while the game is
running, `too_few_white_cards` when the white deck plus all hands cannot
cover `(hand_size + 2)` cards for every player including the newcomer
(`hand_size` is `config.game.hand_size`).  On success the new player is
appended.  `user.added_to_game` raises `user_not_connected` only *after* the
append, and the carried error state reflects that. -/
def Game.add_player (hand_size : Nat) (g : Game) (user : UserRef) :
    Except (PyError × Game) Game :=
  if user.in_game then
    .error (.gameError "user_in_game" "user already in game", g)
  else if g.players.length ≥ g.options.player_limit then
    .error (.gameError "game_full" "the game is full", g)
  else if g.game_running = true
      ∧ g.white_deck.total_cards + (g.players.map (fun p => p.hand.length)).sum
        < (hand_size + 2) * (g.players.length + 1) then
    .error (.gameError "too_few_white_cards"
      "too few white cards in the game for any more players", g)
  else
    let player : Player :=
      { id := user.id, name := user.name, hand := [], score := 0, idle_rounds := 0 }
    let g' := { g with players := g.players ++ [player] }
    if user.connected = false then
      .error (.gameError "user_not_connected" "user not connected", g')
    else .ok g'

/-- Mutation of the live `Player` object with the given user id, as seen
through the game's players list (ids are unique in the list: the
`SearchableList` has a unique `id` index). -/
def updatePlayer (ps : List Player) (uid : UserID) (f : Player → Player) : List Player :=
  ps.map (fun p => if p.id = uid then f p else p)

/-- `Game.choose_winner` (game.py lines 615-636): requires `judging` state
and a matching round id; the winner is the unique player whose play's first
card has the winning `slot_id` (`single` over the dict comprehension; each
recorded play is non-empty since `pick_count >= 1`, so `cards[0]` is
modelled by `head?`); then the czar's idle counter is reset, the round's
winner recorded, the winner's score incremented, and the state becomes
`game_ended` iff the new score equals the point limit, else `round_ended`. -/
def Game.choose_winner (g : Game) (round_id : RoundID) (winning_card : WhiteCardID) :
    Except (PyError × Game) Game :=
  if g.state ≠ GameState.judging then
    .error (.gameError "invalid_round_state" "the winner is not being chosen for the round", g)
  else
    match g.rounds.getLast? with
    | none => .error (.indexError "list index out of range", g)
    | some r =>
      if round_id ≠ r.id then
        .error (.gameError "wrong_round" "the round is not being played", g)
      else
        match single ((r.white_cards.filter
            (fun pc => pc.2.head?.map (fun c => c.slot_id) == some winning_card)).map
              (fun pc => pc.1)) with
        | .error _ => .error (.gameError "invalid_winner" "no such card played", g)
        | .ok winner_id =>
          match g.players.find? (fun p => p.id == winner_id) with
          | none => .error (.keyError "no item with that id", g)
          | some winner =>
            let players2 := updatePlayer (updatePlayer g.players r.card_czar
              (fun p => { p with idle_rounds := 0 })) winner_id
              (fun p => { p with score := p.score + 1 })
            let st := if winner.score + 1 = g.options.point_limit then GameState.game_ended
              else GameState.round_ended
            .ok { g with
                  players := players2,
                  rounds := g.rounds.dropLast ++ [{ r with winner := some winner_id }],
                  state := st }

/-- Whether an `Except` result is a success. -/
def exceptIsOk {ε α : Type} : Except ε α → Bool
  | .ok _ => true
  | .error _ => false

/-- A non-blank white card with the given slot id, for concrete instances. -/
def sampleCard (i : Nat) : WhiteCard := { slot_id := i, text := some "t", blank := false }

/-- A concrete judging round: czar 0, plays by players 1 and 2. -/
def sampleRoundC1 : Round :=
  { card_czar := 0
    black_card := { text := "b", pick_count := 1, draw_count := 0 }
    white_cards := [(1, [sampleCard 11]), (2, [sampleCard 21])]
    winner := none
    id := 7 }

/-- A concrete game in judging state for `choose_winner`. -/
def sampleGameC1 : Game :=
  { code := "AAAA"
    options := sampleOptions
    rounds := [sampleRoundC1]
    players := [{ samplePlayer 0 [] with idle_rounds := 1 }, samplePlayer 1 [], samplePlayer 2 []]
    state := GameState.judging
    black_deck := { deck := [], discarded := [] }
    white_deck := { deck := [], discarded := [] } }

/-- `Player.play_card`: remove the first hand card whose `slot_id` matches,
or raise `card_not_in_hand`. -/
def playCard (hand : List WhiteCard) (card : WhiteCard) : Except PyError (List WhiteCard) :=
  if hand.any (fun c => c.slot_id == card.slot_id) then
    .ok (hand.eraseP (fun c => c.slot_id == card.slot_id))
  else .error (.gameError "card_not_in_hand" "you do not have the card")

/-- One step of the card-finding loop in `play_white_cards`: the unique hand
card with the requested slot id (`single`, any failure reported as
`card_not_in_hand`), with the supplied text written onto it when present. -/
def resolveCard (hand : List WhiteCard) (sc : WhiteCardID × Option String) :
    Except PyError WhiteCard :=
  match single (hand.filter (fun c => c.slot_id == sc.1)) with
  | .error _ => .error (.gameError "card_not_in_hand" "you do not have the chosen cards")
  | .ok card =>
    match sc.2 with
    | none => .ok card
    | some t => card.write_blank t

/-- The card-finding loop of `play_white_cards`, left to right, stopping at
the first failure. -/
def resolveCards (hand : List WhiteCard) :
    List (WhiteCardID × Option String) → Except PyError (List WhiteCard)
  | [] => .ok []
  | sc :: rest =>
    match resolveCard hand sc with
    | .error e => .error e
    | .ok c =>
      match resolveCards hand rest with
      | .error e => .error e
      | .ok cs => .ok (c :: cs)

/-- The card-playing loop of `play_white_cards`: remove the resolved cards
from the hand one by one; a failure carries the hand as already mutated by
the loop (unreachable after a successful resolution pass, but modelled
faithfully). -/
def playCards (hand : List WhiteCard) :
    List WhiteCard → Except (PyError × List WhiteCard) (List WhiteCard)
  | [] => .ok hand
  | c :: rest =>
    match playCard hand c with
    | .error e => .error (e, hand)
    | .ok h2 => playCards h2 rest

/-- `Game.play_white_cards` (game.py lines 565-596).  The Python method
receives the live `Player` object (always an entry of `players`); it is
addressed here by its user id, looked up through the unique `id` index. -/
def Game.play_white_cards (g : Game) (round_id : RoundID) (player_id : UserID)
    (cards : List (WhiteCardID × Option String)) : Except (PyError × Game) Game :=
  if g.state ≠ GameState.playing then
    .error (.gameError "invalid_round_state" "white cards are not being played for the round", g)
  else
    match g.rounds.getLast? with
    | none => .error (.indexError "list index out of range", g)
    | some r =>
      if round_id ≠ r.id then
        .error (.gameError "wrong_round" "the round is not being played", g)
      else
        match g.players.find? (fun p => p.id == player_id) with
        | none => .error (.keyError "player not in list", g)
        | some player =>
          if ¬ r.needs_to_play player then
            .error (.gameError "already_played" "you already played white cards for the round", g)
          else if (cards.map (fun sc => sc.1)).dedup.length ≠ cards.length then
            .error (.gameError "invalid_white_cards" "duplicate cards chosen", g)
          else if cards.length ≠ r.black_card.pick_count then
            .error (.gameError "invalid_white_cards" "wrong number of cards chosen", g)
          else
            match resolveCards player.hand cards with
            | .error e => .error (e, g)
            | .ok cards_to_play =>
              match playCards player.hand cards_to_play with
              | .error ef =>
                let gFail : Game := { g with
                  players := updatePlayer g.players player_id (fun q => { q with hand := ef.2 }) }
                .error (ef.1, gFail)
              | .ok newHand =>
                let player2 : Player := { player with hand := newHand, idle_rounds := 0 }
                let r2 : Round :=
                  { r with white_cards := dictSet player.id cards_to_play r.white_cards }
                Except.ok (Game.check_all_played { g with
                  players := updatePlayer g.players player_id (fun _ => player2),
                  rounds := g.rounds.dropLast ++ [r2] })

/-- The game record built by a successful `play_white_cards` just before
`_check_all_played` runs: the player's hand is replaced by what remains, the
idle counter reset, and the play recorded in the current round. -/
def afterPlay (g : Game) (r : Round) (pid : UserID) (p : Player)
    (played : List WhiteCard) (newHand : List WhiteCard) : Game :=
  { g with
    players := updatePlayer g.players pid (fun _ => { p with hand := newHand, idle_rounds := 0 }),
    rounds := g.rounds.dropLast ++
      [{ r with white_cards := dictSet p.id played r.white_cards }] }

/-- The playing round used in the concrete `play_white_cards` runs. -/
def sampleRoundC2 : Round :=
  { card_czar := 0
    black_card := { text := "b", pick_count := 1, draw_count := 0 }
    white_cards := []
    winner := none
    id := 42 }

/-- A three-player playing game: after player 1 plays, player 2 still needs
to play. -/
def sampleGameC2 : Game :=
  { code := "AAAA"
    options := sampleOptions
    rounds := [sampleRoundC2]
    players := [samplePlayer 0 [sampleCard 9], samplePlayer 1 [sampleCard 12],
      samplePlayer 2 [sampleCard 13]]
    state := GameState.playing
    black_deck := { deck := [], discarded := [] }
    white_deck := { deck := [], discarded := [] } }

/-- A two-player playing game: after player 1 plays, nobody needs to play. -/
def sampleGameC2cex : Game :=
  { code := "AAAA"
    options := sampleOptions
    rounds := [sampleRoundC2]
    players := [samplePlayer 0 [sampleCard 9], samplePlayer 1 [sampleCard 12]]
    state := GameState.playing
    black_deck := { deck := [], discarded := [] }
    white_deck := { deck := [], discarded := [] } }

/-- The state reached from `sampleGameC2cex` after player 1's successful
play: the play is recorded and the game has moved on to judging. -/
def sampleGameC2cexAfter : Game :=
  { code := "AAAA"
    options := sampleOptions
    rounds := [{ sampleRoundC2 with white_cards := [(1, [sampleCard 12])] }]
    players := [samplePlayer 0 [sampleCard 9], samplePlayer 1 []]
    state := GameState.judging
    black_deck := { deck := [], discarded := [] }
    white_deck := { deck := [], discarded := [] } }

/-- `IndexType` from `searchablelist.py`. -/
inductive IndexType where
  | notNone
  | ignoreNone
  | allowNone
  deriving DecidableEq, Repr

/-- `SearchableIndex`: one named unique index.  The converter may produce
Python `None`, modelled by `none`; `data` is the index dict whose keys are
converter outputs (`none` itself is a legal dict key under the allow-none
policy). -/
structure SearchableIndex (K T : Type) where
  type : IndexType
  conv : T → Option K
  data : List (Option K × T)

/-- `SearchableIndex.__check_key`: `ValueError` on a `None` key under
`NOT_NONE`, skip (`false`) under `IGNORE_NONE`, record (`true`) otherwise. -/
def checkKey {K : Type} (t : IndexType) (key : Option K) : Except PyError Bool :=
  match key, t with
  | none, .notNone => .error (.valueError "None values not allowed")
  | none, .ignoreNone => .ok false
  | _, _ => .ok true

/-- `SearchableIndex.add_to_index`: `self.data[key] = item` when the key is
recorded. -/
def SearchableIndex.addToIndex {K T : Type} [DecidableEq K] (idx : SearchableIndex K T)
    (item : T) : Except PyError (SearchableIndex K T) :=
  match checkKey idx.type (idx.conv item) with
  | .error e => .error e
  | .ok false => .ok idx
  | .ok true => .ok { idx with data := dictSet (idx.conv item) item idx.data }

/-- `SearchableIndex.drop_from_index`: `del self.data[key]` when the key is
recorded; like Python's `del`, raises `KeyError` if the key is absent. -/
def SearchableIndex.dropFromIndex {K T : Type} [DecidableEq K] (idx : SearchableIndex K T)
    (item : T) : Except PyError (SearchableIndex K T) :=
  match checkKey idx.type (idx.conv item) with
  | .error e => .error e
  | .ok false => .ok idx
  | .ok true =>
    if (dictLookup (idx.conv item) idx.data).isSome then
      .ok { idx with data := dictErase (idx.conv item) idx.data }
    else .error (.keyError "key not in index")

/-- `SearchableIndex.check_add`: `ValueError` when the key is already bound
to an entry other than `to_be_replaced`.  Python compares with `is`
(identity); items are pure values here, so identity is modelled by equality,
and the fresh `object()` sentinel of a plain insertion by `none`. -/
def SearchableIndex.checkAdd {K T : Type} [DecidableEq K] [DecidableEq T]
    (idx : SearchableIndex K T) (item : T) (toBeReplaced : Option T) : Except PyError Unit :=
  match checkKey idx.type (idx.conv item) with
  | .error e => .error e
  | .ok false => .ok ()
  | .ok true =>
    match dictLookup (idx.conv item) idx.data with
    | none => .ok ()
    | some indexed =>
      if toBeReplaced = some indexed then .ok ()
      else .error (.valueError "item with same key already in list")

/-- `SearchableList` from `searchablelist.py`: the insertion-ordered data
list plus its indexes. -/
structure SearchableList (K T : Type) where
  data : List T
  indices : List (SearchableIndex K T)

/-- `SearchableList.__check_add`: run `check_add` on every index (checks run
before any mutation). -/
def checkAddAll {K T : Type} [DecidableEq K] [DecidableEq T]
    (idxs : List (SearchableIndex K T)) (item : T) (tbr : Option T) : Except PyError Unit :=
  match idxs with
  | [] => .ok ()
  | idx :: rest =>
    match idx.checkAdd item tbr with
    | .error e => .error e
    | .ok _ => checkAddAll rest item tbr

/-- `SearchableList.__add_to_index`: add the item to every index. -/
def addToIndexAll {K T : Type} [DecidableEq K] (idxs : List (SearchableIndex K T))
    (item : T) : Except PyError (List (SearchableIndex K T)) :=
  match idxs with
  | [] => .ok []
  | idx :: rest =>
    match idx.addToIndex item with
    | .error e => .error e
    | .ok idx2 =>
      match addToIndexAll rest item with
      | .error e => .error e
      | .ok rest2 => .ok (idx2 :: rest2)

/-- `SearchableList.__drop_from_index`: drop the item from every index. -/
def dropFromIndexAll {K T : Type} [DecidableEq K] (idxs : List (SearchableIndex K T))
    (item : T) : Except PyError (List (SearchableIndex K T)) :=
  match idxs with
  | [] => .ok []
  | idx :: rest =>
    match idx.dropFromIndex item with
    | .error e => .error e
    | .ok idx2 =>
      match dropFromIndexAll rest item with
      | .error e => .error e
      | .ok rest2 => .ok (idx2 :: rest2)

/-- Python `list.insert` for non-negative positions: positions past the end
append. -/
def pyInsertIdx {T : Type} (pos : Nat) (item : T) (l : List T) : List T :=
  if pos ≥ l.length then l ++ [item] else l.insertIdx pos item

/-- `SearchableList.insert`: check all indexes, then splice into the data
list, then add to every index. -/
def SearchableList.insertAt {K T : Type} [DecidableEq K] [DecidableEq T]
    (l : SearchableList K T) (pos : Nat) (item : T) : Except PyError (SearchableList K T) :=
  match checkAddAll l.indices item none with
  | .error e => .error e
  | .ok _ =>
    match addToIndexAll l.indices item with
    | .error e => .error e
    | .ok idxs => .ok { data := pyInsertIdx pos item l.data, indices := idxs }

/-- `SearchableList.__setitem__`: check all indexes against the entry being
replaced, drop the old entry from every index, overwrite the slot, add the
new entry to every index. -/
def SearchableList.setAt {K T : Type} [DecidableEq K] [DecidableEq T]
    (l : SearchableList K T) (pos : Nat) (item : T) : Except PyError (SearchableList K T) :=
  match l.data.get? pos with
  | none => .error (.indexError "list assignment index out of range")
  | some tbr =>
    match checkAddAll l.indices item (some tbr) with
    | .error e => .error e
    | .ok _ =>
      match dropFromIndexAll l.indices tbr with
      | .error e => .error e
      | .ok idxs1 =>
        match addToIndexAll idxs1 item with
        | .error e => .error e
        | .ok idxs2 => .ok { data := l.data.set pos item, indices := idxs2 }

/-- `SearchableList.__delitem__`: drop the entry from every index, then from
the data list. -/
def SearchableList.delAt {K T : Type} [DecidableEq K] (l : SearchableList K T)
    (pos : Nat) : Except PyError (SearchableList K T) :=
  match l.data.get? pos with
  | none => .error (.indexError "list index out of range")
  | some tbd =>
    match dropFromIndexAll l.indices tbd with
    | .error e => .error e
    | .ok idxs => .ok { data := l.data.eraseIdx pos, indices := idxs }

/-- The mutating `SearchableList` operations a claim-relevant caller can
issue: `insert`, `__setitem__`, `__delitem__` (`append` and `remove` reduce
to these). -/
inductive SLOp (K T : Type) where
  | ins (pos : Nat) (item : T)
  | set (pos : Nat) (item : T)
  | del (pos : Nat)

/-- Run one operation, returning the raised error if any. -/
def SearchableList.runOp {K T : Type} [DecidableEq K] [DecidableEq T]
    (l : SearchableList K T) : SLOp K T → Except PyError (SearchableList K T)
  | .ins pos item => l.insertAt pos item
  | .set pos item => l.setAt pos item
  | .del pos => l.delAt pos

/-- Run one operation with Python exception semantics at the caller: a
raised error leaves the list as it was.  (All checks precede mutation; on
states satisfying the representation invariant no operation fails after
mutating.) -/
def SearchableList.applyOp {K T : Type} [DecidableEq K] [DecidableEq T]
    (l : SearchableList K T) (op : SLOp K T) : SearchableList K T :=
  match l.runOp op with
  | .ok l2 => l2
  | .error _ => l

/-- Run a sequence of operations. -/
def SearchableList.applyOps {K T : Type} [DecidableEq K] [DecidableEq T]
    (l : SearchableList K T) (ops : List (SLOp K T)) : SearchableList K T :=
  ops.foldl SearchableList.applyOp l

/-- `SearchableList.__init__` with the given index declarations and no
initial data. -/
def mkSearchableList {K T : Type} (decls : List (IndexType × (T → Option K))) :
    SearchableList K T :=
  { data := [], indices := decls.map (fun ti => { type := ti.1, conv := ti.2, data := [] }) }

/-- The key under which an index records an item, if it records it at all
(an ignore-none index does not record items whose key is `None`). -/
def recordedKey {K T : Type} (idx : SearchableIndex K T) (x : T) : Option (Option K) :=
  match idx.conv x, idx.type with
  | none, .ignoreNone => none
  | key, _ => some key

/-- The per-index representation invariant relative to a data list: dict
keys are unique, bindings are exactly the recorded members of the data
list, and recorded items occur in the data list at most once. -/
def InvIdx {K T : Type} [DecidableEq T] (idx : SearchableIndex K T) (data : List T) : Prop :=
  ((idx.data.map Prod.fst).Nodup)
  ∧ (∀ k x, (k, x) ∈ idx.data ↔ x ∈ data ∧ recordedKey idx x = some k)
  ∧ (∀ x, recordedKey idx x ≠ none → data.count x ≤ 1)
  ∧ (idx.type = IndexType.notNone → ∀ x ∈ data, idx.conv x ≠ none)

/-- The representation invariant of a `SearchableList`: every index is
consistent with the data list. -/
def SearchableList.Inv {K T : Type} [DecidableEq T] (l : SearchableList K T) : Prop :=
  ∀ idx ∈ l.indices, InvIdx idx l.data

/-- C4 (amended): on a deck whose draw and discard piles are both empty,
`draw` fails by raising `LookupError "no cards in deck"` — a builtin
exception carrying no game error code (there is no `empty_deck` code in the
code base); when only the draw pile is empty, `draw` first moves the whole
discard pile into the draw pile, shuffles it, clears the discard pile, and
then pops the top (last) card. -/
theorem claim_C4_deck_draw (α : Type) (shuffleFn : List α → List α) (discardOf : α → α)
    (d : Deck α) (hperm : ∀ l, (shuffleFn l).Perm l) (hdeck : d.deck = []) :
    (d.discarded = [] → ∀ flag, Deck.draw shuffleFn discardOf flag d
        = .error (.lookupError "no cards in deck"))
    ∧ (d.discarded ≠ [] → ∃ c rest, shuffleFn d.discarded = rest ++ [c] ∧
        Deck.draw shuffleFn discardOf false d
          = .ok (c, { deck := rest, discarded := [] })) := by
  obtain ⟨dk, dc⟩ := d
  simp only at hdeck
  subst hdeck
  constructor
  · intro hdc flag
    subst hdc
    have h0 : shuffleFn [] = [] := (hperm []).eq_nil
    simp [Deck.draw, Deck.reshuffle, h0]
  · intro hdc
    have hlen : (shuffleFn dc).length = dc.length := by
      simpa using (hperm ([] ++ dc)).length_eq
    have hne : shuffleFn dc ≠ [] := by
      intro h
      rw [h] at hlen
      exact hdc (List.eq_nil_of_length_eq_zero hlen.symm)
    refine ⟨(shuffleFn dc).getLast hne, (shuffleFn dc).dropLast,
      (List.dropLast_append_getLast hne).symm, ?_⟩
    simp [Deck.draw, Deck.reshuffle, List.getLast?_eq_getLast _ hne]

/-- C4 witness: drawing from a deck with an empty draw pile and one discarded
card reshuffles and returns that card. -/
theorem claim_C4_deck_draw_witness :
    Deck.draw (fun l => l) (fun x : Nat => x) false { deck := [], discarded := [3] }
      = .ok (3, { deck := [], discarded := [] }) := by
  have h := (claim_C4_deck_draw Nat (fun l => l) (fun x => x)
      { deck := [], discarded := [3] } (fun l => List.Perm.refl l) rfl).2 (by simp)
  obtain ⟨c, rest, h1, h2⟩ := h
  have hc : rest = [] ∧ c = 3 := by
    cases rest with
    | nil =>
      refine ⟨rfl, ?_⟩
      simpa using h1.symm
    | cons a as =>
      have hlen := congrArg List.length h1
      simp [List.length_append] at hlen
  obtain ⟨hr, hc3⟩ := hc
  subst hr; subst hc3
  exact h2

/-- C4 counterexample: with both piles empty, `draw` raises a `LookupError`,
which carries no game error code at all — in particular not `empty_deck`. -/
theorem claim_C4_deck_draw_counterexample :
    Deck.draw (fun l => l) (fun x : Nat => x) false { deck := [], discarded := [] }
      = .error (.lookupError "no cards in deck")
    ∧ PyError.code (.lookupError "no cards in deck") = none := ⟨rfl, rfl⟩

/-- C7: `needs_to_play(player)` holds iff the player is not the card czar,
their hand is non-empty and their id has no entry in the round's
`white_cards`; hence a player with an empty hand never needs to play, and
once every player with a non-empty hand is the czar or has played,
`_check_all_played` moves the game from `playing` to `judging` — empty-handed
players never block the transition. -/
theorem claim_C7_needs_to_play (r : Round) (p : Player) (g : Game) :
    (r.needs_to_play p = true ↔
      p.id ≠ r.card_czar ∧ p.hand ≠ [] ∧ dictLookup p.id r.white_cards = none)
    ∧ (p.hand = [] → r.needs_to_play p = false)
    ∧ (g.state = GameState.playing → g.rounds.getLast? = some r →
        (∀ q ∈ g.players, q.hand ≠ [] → r.needs_to_play q = false) →
        (g.check_all_played).state = GameState.judging) := by
  have hchar : ∀ q : Player, r.needs_to_play q = true ↔
      q.id ≠ r.card_czar ∧ q.hand ≠ [] ∧ dictLookup q.id r.white_cards = none := by
    intro q
    simp [Round.needs_to_play, Bool.and_eq_true, List.isEmpty_iff,
      Option.isNone_iff_eq_none, and_assoc]
  refine ⟨hchar p, ?_, ?_⟩
  · intro h
    simp [Round.needs_to_play, h]
  · intro hst hlast hall
    have hrun : g.game_running = true := by
      simp [Game.game_running, hst]
    have hcur : g.current_round = some r := by
      simp [Game.current_round, hrun, hlast]
    have hany : g.players.any (fun q => r.needs_to_play q) = false := by
      rw [List.any_eq_false]
      intro q hq
      by_cases hh : q.hand = []
      · simp [Round.needs_to_play, hh]
      · simp [hall q hq hh]
    simp [Game.check_all_played, hst, hcur, hany]

/-- C7 witness: in a concrete two-player playing state where the non-czar
player has played and a third empty-handed player is present,
`_check_all_played` reaches `judging`. -/
theorem claim_C7_needs_to_play_witness :
    (Game.check_all_played
      { code := "AAAA"
        options := { game_title := "", public := true, think_time := 5, round_end_time := 5,
                     idle_rounds := 2, blank_cards := 0, player_limit := 10, point_limit := 5,
                     password := "" }
        rounds := [{ card_czar := 0
                     black_card := { text := "b", pick_count := 1, draw_count := 0 }
                     white_cards := [(1, [{ slot_id := 11, text := some "w", blank := false }])]
                     winner := none
                     id := 5 }]
        players := [{ id := 0, name := "A", hand := [{ slot_id := 9, text := some "x", blank := false }],
                      score := 0, idle_rounds := 0 },
                    { id := 1, name := "B", hand := [], score := 0, idle_rounds := 0 },
                    { id := 2, name := "C", hand := [], score := 0, idle_rounds := 0 }]
        state := GameState.playing
        black_deck := { deck := [], discarded := [] }
        white_deck := { deck := [], discarded := [] } }).state = GameState.judging := by
  refine (claim_C7_needs_to_play _
    { id := 2, name := "C", hand := [], score := 0, idle_rounds := 0 } _).2.2 rfl rfl ?_
  intro q hq hh
  fin_cases hq <;> rfl

/-- Scanning a list backwards for the first match finds the last match in
forward order. -/
theorem find?_reverse_eq_getLast?_filter {α : Type} (l : List α) (p : α → Bool) :
    l.reverse.find? p = (l.filter p).getLast? := by
  induction l using List.reverseRecOn with
  | nil => rfl
  | append_singleton xs x ih =>
    have hrev : (xs ++ [x]).reverse = x :: xs.reverse := by simp
    rw [hrev, List.filter_append]
    cases hpx : p x with
    | true =>
      rw [List.find?_cons_of_pos _ hpx]
      simp [hpx]
    | false =>
      rw [List.find?_cons_of_neg _ (by simp [hpx]), ih]
      simp [hpx]

/-- C3: when a new round starts, if some past round's czar is still in the
player list then, with `r` the most recent such round (the last element of
the rounds history whose czar is present), the new czar is the player at
position `(index of that czar + 1) mod len(players)`; if no past round has a
present czar, the czar is the element of `players` drawn by
`random.choice`, modelled by an arbitrary index `pick < len(players)`
(uniformity of `choice` itself is a property of Python's RNG, not of this
code). -/
theorem claim_C3_czar_selection (rounds : List Round) (players : List Player) (pick : Nat)
    (hpick : pick < players.length) :
    (∀ r, (rounds.filter (fun r => players.any (fun p => p.id == r.card_czar))).getLast?
        = some r →
      selectCzar rounds players pick
        = players.get? ((players.findIdx (fun p => p.id == r.card_czar) + 1) % players.length)
      ∧ ∃ q, selectCzar rounds players pick = some q)
    ∧ ((rounds.filter (fun r => players.any (fun p => p.id == r.card_czar))).getLast? = none →
      selectCzar rounds players pick = some (players.get ⟨pick, hpick⟩)) := by
  have hfr := find?_reverse_eq_getLast?_filter rounds
    (fun r => players.any (fun p => p.id == r.card_czar))
  constructor
  · intro r hr
    have h1 : selectCzar rounds players pick
        = players.get? ((players.findIdx (fun p => p.id == r.card_czar) + 1) % players.length) := by
      unfold selectCzar
      rw [hfr, hr]
    refine ⟨h1, ?_⟩
    have hlen : 0 < players.length := Nat.lt_of_le_of_lt (Nat.zero_le _) hpick
    have hmod : (players.findIdx (fun p => p.id == r.card_czar) + 1) % players.length
        < players.length := Nat.mod_lt _ hlen
    rw [h1, List.get?_eq_get hmod]
    exact ⟨players.get ⟨_, hmod⟩, rfl⟩
  · intro hr
    unfold selectCzar
    rw [hfr, hr, List.get?_eq_get hpick]

/-- C3 witness: with one past round whose czar (id 0) is still among three
players, the next czar is the player at index `(0 + 1) % 3 = 1`. -/
theorem claim_C3_czar_selection_witness :
    selectCzar
      [{ card_czar := 0, black_card := { text := "b", pick_count := 1, draw_count := 0 },
         white_cards := [], winner := none, id := 5 }]
      [samplePlayer 0 [], samplePlayer 1 [], samplePlayer 2 []] 0
      = some (samplePlayer 1 []) := by
  have h := (claim_C3_czar_selection
    [{ card_czar := 0, black_card := { text := "b", pick_count := 1, draw_count := 0 },
       white_cards := [], winner := none, id := 5 }]
    [samplePlayer 0 [], samplePlayer 1 [], samplePlayer 2 []] 0 (by decide)).1
    { card_czar := 0, black_card := { text := "b", pick_count := 1, draw_count := 0 },
      white_cards := [], winner := none, id := 5 } (by decide)
  exact h.1.trans (by decide)

/-- C9: on a game with a non-empty password option, a missing or empty
supplied password fails with `password_required`, and a non-empty supplied
password passes the gate if and only if it equals the game's password after
both sides are upper-cased — so an exact-case match is not required. -/
theorem claim_C9_join_password (upper : String → String) (gamePassword : String)
    (hne : gamePassword ≠ "") :
    (joinGamePasswordCheck upper gamePassword none
      = .error (.gameError "password_required" "a password is required to join the game"))
    ∧ (joinGamePasswordCheck upper gamePassword (some "")
      = .error (.gameError "password_required" "a password is required to join the game"))
    ∧ (∀ pw, pw ≠ "" →
        (joinGamePasswordCheck upper gamePassword (some pw) = .ok ()
          ↔ upper gamePassword = upper pw)) := by
  refine ⟨?_, ?_, ?_⟩
  · simp [joinGamePasswordCheck, hne]
  · simp [joinGamePasswordCheck, hne]
  · intro pw hpw
    by_cases heq : upper gamePassword = upper pw
    · simp [joinGamePasswordCheck, hne, hpw, heq]
    · simp [joinGamePasswordCheck, hne, hpw, heq]

/-- C9 witness: with game password `"Secret"`, the differently-cased supplied
password `"sECRET"` is accepted. -/
theorem claim_C9_join_password_witness :
    joinGamePasswordCheck pyUpper "Secret" (some "sECRET") = .ok ()
    ∧ "sECRET" ≠ "Secret" := by
  refine ⟨((claim_C9_join_password pyUpper "Secret" (by decide)).2.2 "sECRET"
    (by decide)).mpr (by decide), by decide⟩

/-- C10: `game_list` returns exactly the games whose `public` option is true,
in order, rendered by `game_list_json` with code, title, player count,
player limit and a `passworded` flag that is true iff the game's password is
non-empty; the result does not depend on whether the requester is in a
game. -/
theorem claim_C10_game_list (titleDefault : String) (games : List Game) (b : Bool) :
    (∀ e, e ∈ handle_game_list titleDefault games b
      ↔ ∃ g ∈ games, g.options.public = true ∧ e = g.game_list_json titleDefault)
    ∧ (∀ g : Game, (g.game_list_json titleDefault).passworded = true
        ↔ g.options.password ≠ "")
    ∧ (∀ g : Game, (g.game_list_json titleDefault).code = g.code
        ∧ (g.game_list_json titleDefault).players = g.players.length
        ∧ (g.game_list_json titleDefault).player_limit = g.options.player_limit)
    ∧ handle_game_list titleDefault games true = handle_game_list titleDefault games false := by
  refine ⟨?_, ?_, ?_, rfl⟩
  · intro e
    simp only [handle_game_list, List.mem_map, List.mem_filter]
    constructor
    · rintro ⟨g, ⟨hg, hpub⟩, rfl⟩
      exact ⟨g, hg, hpub, rfl⟩
    · rintro ⟨g, hg, hpub, rfl⟩
      exact ⟨g, ⟨hg, hpub⟩, rfl⟩
  · intro g
    simp [Game.game_list_json]
  · intro g
    exact ⟨rfl, rfl, rfl⟩

/-- C10 witness: of a public and a non-public game, only the public one is
listed, whether or not the requester is in a game. -/
theorem claim_C10_game_list_witness :
    (sampleGame true "x").game_list_json "D" ∈
      handle_game_list "D" [sampleGame true "x", sampleGame false ""] true
    ∧ handle_game_list "D" [sampleGame true "x", sampleGame false ""] true
      = handle_game_list "D" [sampleGame true "x", sampleGame false ""] false
    ∧ ((sampleGame true "x").game_list_json "D").passworded = true := by
  refine ⟨((claim_C10_game_list "D" [sampleGame true "x", sampleGame false ""] true).1 _).mpr
      ⟨sampleGame true "x", by simp, rfl, rfl⟩,
    (claim_C10_game_list "D" [sampleGame true "x", sampleGame false ""] true).2.2.2,
    ((claim_C10_game_list "D" [] true).2.1 (sampleGame true "x")).mpr (by decide)⟩

/-- C5 (amended): a `play_white` request in which some card carries a text
that, after stripping, is empty or longer than the configured maximum is
rejected by raising `InvalidRequest("invalid cards")`, so the reply carries
the error code `invalid_request` (there is no `invalid_cards` code in the
code base). -/
theorem claim_C5_blank_text (max_length : Nat) (blacklistOk : String → Bool)
    (inputs : List (WhiteCardID × Option String)) (slot : WhiteCardID) (t : String)
    (hmem : (slot, some t) ∈ inputs)
    (hbad : (pyStrip t).length = 0 ∨ max_length < (pyStrip t).length) :
    parsePlayCards max_length blacklistOk inputs
      = .error (.gameError "invalid_request" "invalid cards")
    ∧ PyError.replyCode (.gameError "invalid_request" "invalid cards")
      = "invalid_request" := by
  refine ⟨?_, rfl⟩
  have hvf : is_valid_text max_length blacklistOk t = false := by
    rcases hbad with h | h
    · simp [is_valid_text, h]
    · simp [is_valid_text, Nat.not_le.mpr h]
  induction inputs with
  | nil => cases hmem
  | cons hd tl ih =>
    obtain ⟨s0, t0⟩ := hd
    rcases List.mem_cons.mp hmem with hh | hh
    · obtain ⟨hs, ht⟩ := Prod.mk.injEq .. ▸ hh
      cases hs
      cases ht
      simp [parsePlayCards, hvf]
    · have htl := ih hh
      cases t0 with
      | none => simp [parsePlayCards, htl]
      | some u =>
        by_cases hv : is_valid_text max_length blacklistOk u = true
        · simp [parsePlayCards, hv, htl]
        · simp [parsePlayCards, hv]

/-- C5 witness: a play with a blank-card text that strips to the empty string
is rejected with reply code `invalid_request`. -/
theorem claim_C5_blank_text_witness :
    parsePlayCards 100 (fun _ => true) [(5, some "  ")]
      = .error (.gameError "invalid_request" "invalid cards") := by
  exact (claim_C5_blank_text 100 (fun _ => true) [(5, some "  ")] 5 "  "
    (by simp) (Or.inl (by decide))).1

/-- C5 counterexample: the error raised for an invalid blank-card text is
`InvalidRequest`, whose wire code is `invalid_request`, not `invalid_cards`. -/
theorem claim_C5_blank_text_counterexample :
    parsePlayCards 100 (fun _ => true) [(5, some "")]
      = .error (.gameError "invalid_request" "invalid cards")
    ∧ PyError.code (.gameError "invalid_request" "invalid cards") ≠ some "invalid_cards" := by
  exact ⟨rfl, by decide⟩

/-- C6: `add_player` fails `user_in_game` when the user is already in a game,
`game_full` when the game already has `player_limit` players, and, when the
game is running, `too_few_white_cards` exactly when the white deck's total
plus all hand sizes is below `(hand_size + 2) * (players + 1)`; each of
these failures carries the unchanged game, so the player list is not
modified. -/
theorem claim_C6_add_player (hand_size : Nat) (g : Game) (user : UserRef) :
    (user.in_game = true → g.add_player hand_size user
      = .error (.gameError "user_in_game" "user already in game", g))
    ∧ (user.in_game = false → g.options.player_limit ≤ g.players.length →
        g.add_player hand_size user = .error (.gameError "game_full" "the game is full", g))
    ∧ (user.in_game = false → g.players.length < g.options.player_limit →
        g.game_running = true →
        (g.add_player hand_size user = .error (.gameError "too_few_white_cards"
            "too few white cards in the game for any more players", g)
          ↔ g.white_deck.total_cards + (g.players.map (fun p => p.hand.length)).sum
              < (hand_size + 2) * (g.players.length + 1))) := by
  refine ⟨?_, ?_, ?_⟩
  · intro h
    simp [Game.add_player, h]
  · intro h hfull
    simp [Game.add_player, h, hfull]
  · intro h hlt hrun
    by_cases hc : g.white_deck.total_cards + (g.players.map (fun p => p.hand.length)).sum
        < (hand_size + 2) * (g.players.length + 1)
    · simp [Game.add_player, h, Nat.not_le.mpr hlt, hrun, hc]
    · simp only [Game.add_player, h, if_false, Bool.false_eq_true]
      rw [if_neg (by simpa using Nat.not_le.mpr hlt), if_neg (by simp [hc])]
      constructor
      · intro hres
        by_cases hconn : user.connected = false
        · rw [if_pos hconn] at hres
          simp at hres
        · rw [if_neg hconn] at hres
          simp at hres
      · intro hres
        exact absurd hres hc

/-- C6 witness: adding a user to a full one-player-limit game fails
`game_full`, and the carried state is the untouched game. -/
theorem claim_C6_add_player_witness :
    Game.add_player 10
      { sampleGame true "" with options := { sampleOptions with player_limit := 1 } }
      { id := 5, name := "u", in_game := false, connected := true }
      = .error (.gameError "game_full" "the game is full",
        { sampleGame true "" with options := { sampleOptions with player_limit := 1 } }) := by
  exact (claim_C6_add_player 10
    { sampleGame true "" with options := { sampleOptions with player_limit := 1 } }
    { id := 5, name := "u", in_game := false, connected := true }).2.1 rfl (by decide)

/-- Finding a player by id after an id-preserving update of (possibly) another
player. -/
theorem find?_updatePlayer (ps : List Player) (uid vid : UserID) (f : Player → Player)
    (hf : ∀ p, (f p).id = p.id) :
    (updatePlayer ps uid f).find? (fun p => p.id == vid)
      = if uid = vid then (ps.find? (fun p => p.id == vid)).map f
        else ps.find? (fun p => p.id == vid) := by
  induction ps with
  | nil => by_cases h : uid = vid <;> simp [updatePlayer, h]
  | cons p ps ih =>
    have hy : (if p.id = uid then f p else p).id = p.id := by
      by_cases h : p.id = uid <;> simp [h, hf]
    by_cases hv : p.id = vid
    · simp only [updatePlayer, List.map_cons, List.find?_cons, hy, hv, beq_self_eq_true]
      by_cases hu : uid = vid
      · have hpu : p.id = uid := hv.trans hu.symm
        simp [hu, hpu, hf, hv]
      · have hpu : ¬ p.id = uid := fun hh => hu (hh.symm.trans hv)
        have hvu : ¬ vid = uid := fun hh => hu hh.symm
        simp [hu, hpu, hvu, hv]
    · have hbv : ((if p.id = uid then f p else p).id == vid) = false := by
        simp [hy, hv]
      have hbv2 : (p.id == vid) = false := by simp [hv]
      simp only [updatePlayer, List.map_cons, List.find?_cons, hbv, hbv2] at ih ⊢
      exact ih

/-- C1: in `judging` state, when exactly one recorded play's first card
carries the winning slot id, `choose_winner` succeeds: the winner's score
grows by exactly 1 (read back through the players list), the round's winner
is set, the czar's idle counter is reset to 0, and the state becomes
`game_ended` iff the new score equals `point_limit`, else `round_ended`;
when no play's first card matches, it fails `invalid_winner` carrying the
unchanged game, so no score changes. -/
theorem claim_C1_choose_winner (g : Game) (r : Round) (w : WhiteCardID)
    (hst : g.state = GameState.judging)
    (hlast : g.rounds.getLast? = some r) :
    (∀ pid cs winner,
      r.white_cards.filter (fun pc => pc.2.head?.map (fun c => c.slot_id) == some w)
        = [(pid, cs)] →
      g.players.find? (fun p => p.id == pid) = some winner →
      ∃ g', g.choose_winner r.id w = .ok g'
        ∧ g'.players = updatePlayer (updatePlayer g.players r.card_czar
            (fun p => { p with idle_rounds := 0 })) pid
            (fun p => { p with score := p.score + 1 })
        ∧ ((updatePlayer (updatePlayer g.players r.card_czar
              (fun p => { p with idle_rounds := 0 })) pid
              (fun p => { p with score := p.score + 1 })).find?
            (fun p => p.id == pid)).map Player.score = some (winner.score + 1)
        ∧ (g.players.find? (fun p => p.id == r.card_czar) ≠ none →
            ((updatePlayer (updatePlayer g.players r.card_czar
                (fun p => { p with idle_rounds := 0 })) pid
                (fun p => { p with score := p.score + 1 })).find?
              (fun p => p.id == r.card_czar)).map Player.idle_rounds = some 0)
        ∧ g'.rounds.getLast? = some { r with winner := some pid }
        ∧ g'.state = (if winner.score + 1 = g.options.point_limit then GameState.game_ended
            else GameState.round_ended))
    ∧ (r.white_cards.filter (fun pc => pc.2.head?.map (fun c => c.slot_id) == some w) = [] →
      g.choose_winner r.id w
        = .error (.gameError "invalid_winner" "no such card played", g)) := by
  constructor
  · intro pid cs winner hfilter hfind
    refine ⟨{ g with
        players := updatePlayer (updatePlayer g.players r.card_czar
          (fun p => { p with idle_rounds := 0 })) pid (fun p => { p with score := p.score + 1 }),
        rounds := g.rounds.dropLast ++ [{ r with winner := some pid }],
        state := if winner.score + 1 = g.options.point_limit then GameState.game_ended
          else GameState.round_ended }, ?_, rfl, ?_, ?_, ?_, rfl⟩
    · simp only [Game.choose_winner, hst, ne_eq, hlast, hfilter, hfind, List.map_cons,
        List.map_nil, single]
      simp
    · rw [find?_updatePlayer (updatePlayer g.players r.card_czar
          (fun p => { p with idle_rounds := 0 })) pid pid
          (fun p => { p with score := p.score + 1 }) (fun p => rfl), if_pos rfl,
        find?_updatePlayer g.players r.card_czar pid
          (fun p => { p with idle_rounds := 0 }) (fun p => rfl)]
      by_cases hc : r.card_czar = pid
      · simp [hc, hfind]
      · simp [hc, hfind]
    · intro hcz
      rcases Option.ne_none_iff_exists'.mp hcz with ⟨pc, hpc⟩
      rw [find?_updatePlayer (updatePlayer g.players r.card_czar
          (fun p => { p with idle_rounds := 0 })) pid r.card_czar
          (fun p => { p with score := p.score + 1 }) (fun p => rfl)]
      by_cases hc : pid = r.card_czar
      · rw [if_pos hc, find?_updatePlayer g.players r.card_czar r.card_czar
            (fun p => { p with idle_rounds := 0 }) (fun p => rfl), if_pos rfl]
        simp [hpc]
      · rw [if_neg hc, find?_updatePlayer g.players r.card_czar r.card_czar
            (fun p => { p with idle_rounds := 0 }) (fun p => rfl), if_pos rfl]
        simp [hpc]
    · simp
  · intro hfilter
    simp only [Game.choose_winner, hst, ne_eq, hlast, hfilter, List.map_nil, single]
    simp

/-- C1 witness: choosing player 1's card succeeds, player 1's score becomes
1 and the czar's idle counter drops from 1 to 0. -/
theorem claim_C1_choose_winner_witness :
    exceptIsOk (Game.choose_winner sampleGameC1 7 11) = true
    ∧ ((updatePlayer (updatePlayer sampleGameC1.players 0
          (fun p => { p with idle_rounds := 0 })) 1
          (fun p => { p with score := p.score + 1 })).find?
        (fun p => p.id == 1)).map Player.score = some 1
    ∧ ((updatePlayer (updatePlayer sampleGameC1.players 0
          (fun p => { p with idle_rounds := 0 })) 1
          (fun p => { p with score := p.score + 1 })).find?
        (fun p => p.id == 0)).map Player.idle_rounds = some 0 := by
  have h := (claim_C1_choose_winner sampleGameC1 sampleRoundC1 11 rfl (by decide)).1
    1 [sampleCard 11] (samplePlayer 1 []) (by decide) (by decide)
  obtain ⟨g', h1, _, h3, h4, _, _⟩ := h
  have h1' : sampleGameC1.choose_winner 7 11 = Except.ok g' := h1
  refine ⟨?_, ?_, ?_⟩
  · rw [h1']
    rfl
  · exact h3
  · exact h4 (by decide)

/-- `_check_all_played` only ever changes the state field. -/
theorem check_all_played_preserves (g : Game) :
    (Game.check_all_played g).rounds = g.rounds
    ∧ (Game.check_all_played g).players = g.players
    ∧ (Game.check_all_played g).options = g.options := by
  unfold Game.check_all_played
  split
  · split
    · split <;> simp
    · simp
  · simp

/-- Finding by id after overwriting the entry with that id. -/
theorem find?_updatePlayer_const (ps : List Player) (uid : UserID) (q : Player)
    (hq : q.id = uid) (h : (ps.find? (fun p => p.id == uid)).isSome) :
    (updatePlayer ps uid (fun _ => q)).find? (fun p => p.id == uid) = some q := by
  induction ps with
  | nil => simp at h
  | cons p ps ih =>
    by_cases hp : p.id = uid
    · simp [updatePlayer, List.find?_cons, hp, hq]
    · have h' : (ps.find? (fun p => p.id == uid)).isSome := by
        simpa [List.find?_cons, hp] using h
      have hb : (p.id == uid) = false := by simp [hp]
      simp only [updatePlayer, List.map_cons, List.find?_cons, hp, if_false, hb] at ih ⊢
      exact ih h'

/-- Appending a fresh key to a dict makes it found. -/
theorem dictLookup_append_self {κ ν : Type} [DecidableEq κ] (k : κ) (v : ν)
    (d : List (κ × ν)) (h : dictLookup k d = none) :
    dictLookup k (d ++ [(k, v)]) = some v := by
  induction d with
  | nil => simp [dictLookup]
  | cons kv rest ih =>
    have hk : ¬ kv.1 = k := by
      intro hh
      simp [dictLookup, hh] at h
    have h' : dictLookup k rest = none := by
      simpa [dictLookup, hk] using h
    simp [dictLookup, hk, ih h']

/-- Assigning a fresh key appends the binding. -/
theorem dictSet_of_none {κ ν : Type} [DecidableEq κ] (k : κ) (v : ν)
    (d : List (κ × ν)) (h : dictLookup k d = none) :
    dictSet k v d = d ++ [(k, v)] := by
  simp [dictSet, h]

/-- C2 (amended): `play_white_cards` fails `invalid_round_state` outside the
playing state, `wrong_round` on a stale round id, `already_played` when the
player no longer needs to play, `invalid_white_cards` on duplicate slot ids
or a count different from the black card's `pick_count`, and
`card_not_in_hand` when a requested slot id is absent from the hand; every
failure carries the unchanged game, so hand, played-cards map and idle
counters are untouched.  Repeating an identical call after a successful one
fails with `already_played` *provided the game is still in the playing
state*; if the successful play completed the round, the game has moved to
`judging` and the repeat fails with `invalid_round_state` instead. -/
theorem claim_C2_play_white_cards (g : Game) (r : Round) (rid : RoundID) (pid : UserID)
    (p : Player) (cards : List (WhiteCardID × Option String)) :
    (g.state ≠ GameState.playing →
      g.play_white_cards rid pid cards
        = .error (.gameError "invalid_round_state"
            "white cards are not being played for the round", g))
    ∧ (g.state = GameState.playing → g.rounds.getLast? = some r → rid ≠ r.id →
      g.play_white_cards rid pid cards
        = .error (.gameError "wrong_round" "the round is not being played", g))
    ∧ (g.state = GameState.playing → g.rounds.getLast? = some r → rid = r.id →
      g.players.find? (fun q => q.id == pid) = some p → r.needs_to_play p = false →
      g.play_white_cards rid pid cards
        = .error (.gameError "already_played"
            "you already played white cards for the round", g))
    ∧ (g.state = GameState.playing → g.rounds.getLast? = some r → rid = r.id →
      g.players.find? (fun q => q.id == pid) = some p → r.needs_to_play p = true →
      (cards.map (fun sc => sc.1)).dedup.length ≠ cards.length →
      g.play_white_cards rid pid cards
        = .error (.gameError "invalid_white_cards" "duplicate cards chosen", g))
    ∧ (g.state = GameState.playing → g.rounds.getLast? = some r → rid = r.id →
      g.players.find? (fun q => q.id == pid) = some p → r.needs_to_play p = true →
      (cards.map (fun sc => sc.1)).dedup.length = cards.length →
      cards.length ≠ r.black_card.pick_count →
      g.play_white_cards rid pid cards
        = .error (.gameError "invalid_white_cards" "wrong number of cards chosen", g))
    ∧ (∀ s t, p.hand.filter (fun c => c.slot_id == s) = [] →
      resolveCard p.hand (s, t)
        = .error (.gameError "card_not_in_hand" "you do not have the chosen cards"))
    ∧ (g.state = GameState.playing → g.rounds.getLast? = some r → rid = r.id →
      g.players.find? (fun q => q.id == pid) = some p → r.needs_to_play p = true →
      (cards.map (fun sc => sc.1)).dedup.length = cards.length →
      cards.length = r.black_card.pick_count →
      ∀ e, resolveCards p.hand cards = .error e →
      g.play_white_cards rid pid cards = .error (e, g))
    ∧ (g.state = GameState.playing → g.rounds.getLast? = some r → rid = r.id →
      g.players.find? (fun q => q.id == pid) = some p → r.needs_to_play p = true →
      (cards.map (fun sc => sc.1)).dedup.length = cards.length →
      cards.length = r.black_card.pick_count →
      ∀ played newHand, resolveCards p.hand cards = .ok played →
      playCards p.hand played = .ok newHand →
      g.play_white_cards rid pid cards
        = .ok (Game.check_all_played (afterPlay g r pid p played newHand))
      ∧ ((Game.check_all_played (afterPlay g r pid p played newHand)).state
            = GameState.playing →
          (Game.check_all_played (afterPlay g r pid p played newHand)).play_white_cards
              rid pid cards
            = .error (.gameError "already_played"
                "you already played white cards for the round",
              Game.check_all_played (afterPlay g r pid p played newHand)))) := by
  refine ⟨?_, ?_, ?_, ?_, ?_, ?_, ?_, ?_⟩
  · intro h
    simp [Game.play_white_cards, h]
  · intro hst hlast hne
    simp [Game.play_white_cards, hst, hlast, hne]
  · intro hst hlast hrid hfind hneeds
    simp [Game.play_white_cards, hst, hlast, hrid, hfind, hneeds]
  · intro hst hlast hrid hfind hneeds hdup
    simp [Game.play_white_cards, hst, hlast, hrid, hfind, hneeds, hdup]
  · intro hst hlast hrid hfind hneeds hdedup hcount
    simp [Game.play_white_cards, hst, hlast, hrid, hfind, hneeds, hdedup, hcount]
  · intro s t hfil
    simp [resolveCard, hfil, single]
  · intro hst hlast hrid hfind hneeds hdedup hcount e hres
    simp [Game.play_white_cards, hst, hlast, hrid, hfind, hneeds, hdedup, hcount, hres]
  · intro hst hlast hrid hfind hneeds hdedup hcount played newHand hres hplay
    have hpid : p.id = pid := by
      have := List.find?_some hfind
      simpa using this
    constructor
    · simp [Game.play_white_cards, hst, hlast, hrid, hfind, hneeds, hdedup, hcount,
        hres, hplay, afterPlay]
    · intro hst2
      obtain ⟨hr2, hp2, -⟩ := check_all_played_preserves (afterPlay g r pid p played newHand)
      have hwcnone : dictLookup p.id r.white_cards = none := by
        have hh := hneeds
        simp [Round.needs_to_play, Bool.and_eq_true] at hh
        exact hh.2
      have hlast2 : (Game.check_all_played (afterPlay g r pid p played newHand)).rounds.getLast?
          = some { r with white_cards := dictSet p.id played r.white_cards } := by
        rw [hr2]
        simp [afterPlay]
      have hfind2 : (Game.check_all_played (afterPlay g r pid p played newHand)).players.find?
            (fun q => q.id == pid)
          = some { p with hand := newHand, idle_rounds := 0 } := by
        rw [hp2]
        simp only [afterPlay]
        exact find?_updatePlayer_const g.players pid _ (by simp [hpid]) (by simp [hfind])
      have hlk : dictLookup p.id (dictSet p.id played r.white_cards) = some played := by
        rw [dictSet_of_none p.id played r.white_cards hwcnone]
        exact dictLookup_append_self p.id played r.white_cards hwcnone
      have hneeds2 : Round.needs_to_play
          { r with white_cards := dictSet p.id played r.white_cards }
          { p with hand := newHand, idle_rounds := 0 } = false := by
        simp [Round.needs_to_play, hlk]
      simp [Game.play_white_cards, hst2, hlast2, hrid, hfind2, hneeds2]

/-- C2 witness: in the three-player game the play succeeds, the game is still
in playing state, and the identical repeated call fails `already_played`
with the state untouched. -/
theorem claim_C2_play_white_cards_witness :
    Game.play_white_cards sampleGameC2 42 1 [(12, none)]
      = .ok (Game.check_all_played (afterPlay sampleGameC2 sampleRoundC2 1
          (samplePlayer 1 [sampleCard 12]) [sampleCard 12] []))
    ∧ (Game.check_all_played (afterPlay sampleGameC2 sampleRoundC2 1
        (samplePlayer 1 [sampleCard 12]) [sampleCard 12] [])).state = GameState.playing
    ∧ (Game.check_all_played (afterPlay sampleGameC2 sampleRoundC2 1
        (samplePlayer 1 [sampleCard 12]) [sampleCard 12] [])).play_white_cards 42 1 [(12, none)]
      = .error (.gameError "already_played" "you already played white cards for the round",
        Game.check_all_played (afterPlay sampleGameC2 sampleRoundC2 1
          (samplePlayer 1 [sampleCard 12]) [sampleCard 12] [])) := by
  have h := (claim_C2_play_white_cards sampleGameC2 sampleRoundC2 42 1
      (samplePlayer 1 [sampleCard 12]) [(12, none)]).2.2.2.2.2.2.2 rfl (by decide) rfl
      (by decide) (by decide) (by decide) rfl [sampleCard 12] [] rfl rfl
  exact ⟨h.1, by decide, h.2 (by decide)⟩

/-- C2 counterexample: in the two-player game the identical repeated call
after a successful play fails with `invalid_round_state` — not
`already_played` — because the successful play completed the round and the
game moved to judging. -/
theorem claim_C2_play_white_cards_counterexample :
    Game.play_white_cards sampleGameC2cex 42 1 [(12, none)] = .ok sampleGameC2cexAfter
    ∧ sampleGameC2cexAfter.state = GameState.judging
    ∧ Game.play_white_cards sampleGameC2cexAfter 42 1 [(12, none)]
      = .error (.gameError "invalid_round_state"
          "white cards are not being played for the round", sampleGameC2cexAfter) := by
  refine ⟨rfl, rfl, rfl⟩

/-- A dict lookup misses exactly when no binding carries the key. -/
theorem dictLookup_eq_none_iff {κ ν : Type} [DecidableEq κ] (k : κ) (d : List (κ × ν)) :
    dictLookup k d = none ↔ ∀ kv ∈ d, kv.1 ≠ k := by
  induction d with
  | nil => simp [dictLookup]
  | cons kv rest ih =>
    by_cases hk : kv.1 = k
    · simp [dictLookup, hk]
    · simp [dictLookup, hk, ih]

/-- A present binding makes the lookup hit. -/
theorem dictLookup_isSome_of_mem {κ ν : Type} [DecidableEq κ] {k : κ} {x : ν}
    {d : List (κ × ν)} (h : (k, x) ∈ d) : (dictLookup k d).isSome := by
  induction d with
  | nil => simp at h
  | cons kv rest ih =>
    by_cases hk : kv.1 = k
    · simp [dictLookup, hk]
    · rcases List.mem_cons.mp h with hh | hh
      · rw [← hh] at hk
        simp at hk
      · simp [dictLookup, hk, ih hh]

/-- With unique keys, a present binding is what the lookup returns. -/
theorem dictLookup_of_mem_nodup {κ ν : Type} [DecidableEq κ] {k : κ} {x : ν}
    {d : List (κ × ν)} (hnd : (d.map Prod.fst).Nodup) (h : (k, x) ∈ d) :
    dictLookup k d = some x := by
  induction d with
  | nil => simp at h
  | cons kv rest ih =>
    rcases List.mem_cons.mp h with hh | hh
    · rw [← hh]
      simp [dictLookup]
    · have hk : kv.1 ≠ k := by
        intro hkk
        have : k ∈ rest.map Prod.fst := List.mem_map.mpr ⟨(k, x), hh, rfl⟩
        rw [List.map_cons, hkk] at hnd
        exact (List.nodup_cons.mp hnd).1 this
      simp [dictLookup, hk, ih (List.nodup_cons.mp (by rw [List.map_cons] at hnd; exact hnd)).2 hh]

/-- What the lookup returns is a present binding. -/
theorem mem_of_dictLookup {κ ν : Type} [DecidableEq κ] {k : κ} {x : ν}
    {d : List (κ × ν)} (h : dictLookup k d = some x) : (k, x) ∈ d := by
  induction d with
  | nil => simp [dictLookup] at h
  | cons kv rest ih =>
    obtain ⟨k1, v1⟩ := kv
    by_cases hk : k1 = k
    · simp only [dictLookup, hk, if_pos, Option.some.injEq] at h
      exact List.mem_cons.mpr (Or.inl (by simp [hk, h]))
    · rw [dictLookup, if_neg hk] at h
      exact List.mem_cons.mpr (Or.inr (ih h))

/-- Membership in an erased dict. -/
theorem mem_dictErase {κ ν : Type} [DecidableEq κ] {k' k : κ} {x : ν} {d : List (κ × ν)} :
    (k', x) ∈ dictErase k d ↔ (k', x) ∈ d ∧ k' ≠ k := by
  simp [dictErase, List.mem_filter]

/-- Erasing a key removes it from the dict. -/
theorem dictLookup_dictErase_self {κ ν : Type} [DecidableEq κ] (k : κ) (d : List (κ × ν)) :
    dictLookup k (dictErase k d) = none := by
  rw [dictLookup_eq_none_iff]
  intro kv hkv
  have := List.mem_filter.mp hkv
  simpa using this.2

/-- Unfolding an erase over a cons. -/
theorem dictErase_cons {κ ν : Type} [DecidableEq κ] (k k1 : κ) (v1 : ν)
    (rest : List (κ × ν)) :
    dictErase k ((k1, v1) :: rest)
      = if k1 = k then dictErase k rest else (k1, v1) :: dictErase k rest := by
  by_cases hk : k1 = k <;> simp [dictErase, List.filter_cons, hk]

/-- Erasing one key leaves other lookups unchanged. -/
theorem dictLookup_dictErase_ne {κ ν : Type} [DecidableEq κ] {k' k : κ} (d : List (κ × ν))
    (h : k' ≠ k) : dictLookup k' (dictErase k d) = dictLookup k' d := by
  induction d with
  | nil => rfl
  | cons kv rest ih =>
    obtain ⟨k1, v1⟩ := kv
    rw [dictErase_cons]
    by_cases hk : k1 = k
    · rw [if_pos hk, ih]
      have hne : ¬ k1 = k' := by
        rw [hk]
        exact fun hh => h hh.symm
      simp [dictLookup, hne]
    · rw [if_neg hk]
      by_cases hk' : k1 = k'
      · simp [dictLookup, hk']
      · simp [dictLookup, hk', ih]

/-- Key uniqueness survives an erase. -/
theorem nodup_keys_dictErase {κ ν : Type} [DecidableEq κ] (k : κ) {d : List (κ × ν)}
    (h : (d.map Prod.fst).Nodup) : ((dictErase k d).map Prod.fst).Nodup := by
  exact List.Nodup.sublist (List.Sublist.map Prod.fst (List.filter_sublist _)) h

/-- Membership in a dict extended with a fresh binding. -/
theorem mem_append_binding {κ ν : Type} {k' k : κ} {x v : ν} {d : List (κ × ν)} :
    (k', x) ∈ d ++ [(k, v)] ↔ (k', x) ∈ d ∨ (k' = k ∧ x = v) := by
  simp [List.mem_append, Prod.ext_iff]

/-- A failing `check_add` on any index makes the whole pre-mutation check
fail. -/
theorem checkAddAll_error_of_mem {K T : Type} [DecidableEq K] [DecidableEq T]
    {idxs : List (SearchableIndex K T)} {idx : SearchableIndex K T} {item : T}
    {tbr : Option T} {e : PyError} (hm : idx ∈ idxs)
    (he : idx.checkAdd item tbr = .error e) :
    ∃ e2, checkAddAll idxs item tbr = .error e2 := by
  induction idxs with
  | nil => simp at hm
  | cons a rest ih =>
    rcases List.mem_cons.mp hm with hh | hh
    · subst hh
      exact ⟨e, by simp [checkAddAll, he]⟩
    · cases ha : a.checkAdd item tbr with
      | error e1 => exact ⟨e1, by simp [checkAddAll, ha]⟩
      | ok u =>
        obtain ⟨e2, h2⟩ := ih hh
        exact ⟨e2, by simp [checkAddAll, ha, h2]⟩

/-- A successful pre-mutation check passed on every index. -/
theorem checkAddAll_ok_forall {K T : Type} [DecidableEq K] [DecidableEq T]
    {idxs : List (SearchableIndex K T)} {item : T} {tbr : Option T} {u : Unit}
    (h : checkAddAll idxs item tbr = .ok u) :
    ∀ idx ∈ idxs, idx.checkAdd item tbr = .ok () := by
  induction idxs with
  | nil => simp
  | cons a rest ih =>
    rw [checkAddAll] at h
    cases ha : a.checkAdd item tbr with
    | error e =>
      rw [ha] at h
      simp at h
    | ok v =>
      cases v
      rw [ha] at h
      intro idx hm
      rcases List.mem_cons.mp hm with hh | hh
      · subst hh
        exact ha
      · exact ih h idx hh

/-- A successful `__add_to_index` pass acted pointwise. -/
theorem addToIndexAll_ok_forall {K T : Type} [DecidableEq K]
    {idxs idxs' : List (SearchableIndex K T)} {item : T}
    (h : addToIndexAll idxs item = .ok idxs') :
    List.Forall₂ (fun a b => a.addToIndex item = .ok b) idxs idxs' := by
  induction idxs generalizing idxs' with
  | nil =>
    simp [addToIndexAll] at h
    subst h
    exact List.Forall₂.nil
  | cons a rest ih =>
    rw [addToIndexAll] at h
    cases ha : a.addToIndex item with
    | error e =>
      rw [ha] at h
      simp at h
    | ok a2 =>
      rw [ha] at h
      cases hr : addToIndexAll rest item with
      | error e =>
        rw [hr] at h
        simp at h
      | ok rest2 =>
        rw [hr] at h
        simp only [Except.ok.injEq] at h
        subst h
        exact List.Forall₂.cons ha (ih hr)

/-- A successful `__drop_from_index` pass acted pointwise. -/
theorem dropFromIndexAll_ok_forall {K T : Type} [DecidableEq K]
    {idxs idxs' : List (SearchableIndex K T)} {item : T}
    (h : dropFromIndexAll idxs item = .ok idxs') :
    List.Forall₂ (fun a b => a.dropFromIndex item = .ok b) idxs idxs' := by
  induction idxs generalizing idxs' with
  | nil =>
    simp [dropFromIndexAll] at h
    subst h
    exact List.Forall₂.nil
  | cons a rest ih =>
    rw [dropFromIndexAll] at h
    cases ha : a.dropFromIndex item with
    | error e =>
      rw [ha] at h
      simp at h
    | ok a2 =>
      rw [ha] at h
      cases hr : dropFromIndexAll rest item with
      | error e =>
        rw [hr] at h
        simp at h
      | ok rest2 =>
        rw [hr] at h
        simp only [Except.ok.injEq] at h
        subst h
        exact List.Forall₂.cons ha (ih hr)

/-- When every index can drop the item, the whole pass succeeds. -/
theorem dropFromIndexAll_ok_of_forall {K T : Type} [DecidableEq K]
    {idxs : List (SearchableIndex K T)} {item : T}
    (h : ∀ idx ∈ idxs, ∃ idx2, idx.dropFromIndex item = .ok idx2) :
    ∃ idxs', dropFromIndexAll idxs item = .ok idxs' := by
  induction idxs with
  | nil => exact ⟨[], rfl⟩
  | cons a rest ih =>
    obtain ⟨a2, ha⟩ := h a (by simp)
    obtain ⟨rest2, hr⟩ := ih (fun idx hm => h idx (by simp [hm]))
    exact ⟨a2 :: rest2, by simp [dropFromIndexAll, ha, hr]⟩

/-- `add_to_index` never changes the policy or the converter. -/
theorem addToIndex_preserves {K T : Type} [DecidableEq K]
    {idx idx' : SearchableIndex K T} {item : T} (h : idx.addToIndex item = .ok idx') :
    idx'.type = idx.type ∧ idx'.conv = idx.conv := by
  unfold SearchableIndex.addToIndex at h
  cases hc : checkKey idx.type (idx.conv item) with
  | error e =>
    rw [hc] at h
    simp at h
  | ok b =>
    rw [hc] at h
    cases b with
    | false => simp_all
    | true =>
      simp only [Except.ok.injEq] at h
      rw [← h]
      exact ⟨rfl, rfl⟩

/-- `drop_from_index` never changes the policy or the converter. -/
theorem dropFromIndex_preserves {K T : Type} [DecidableEq K]
    {idx idx' : SearchableIndex K T} {item : T} (h : idx.dropFromIndex item = .ok idx') :
    idx'.type = idx.type ∧ idx'.conv = idx.conv := by
  unfold SearchableIndex.dropFromIndex at h
  cases hc : checkKey idx.type (idx.conv item) with
  | error e =>
    rw [hc] at h
    simp at h
  | ok b =>
    rw [hc] at h
    cases b with
    | false => simp_all
    | true =>
      by_cases hl : (dictLookup (idx.conv item) idx.data).isSome
      · rw [if_pos hl] at h
        simp only [Except.ok.injEq] at h
        rw [← h]
        exact ⟨rfl, rfl⟩
      · rw [if_neg hl] at h
        simp at h

/-- `__check_key` skips exactly the `None` keys of ignore-none indexes. -/
theorem checkKey_ok_false_iff {K : Type} (t : IndexType) (key : Option K) :
    checkKey t key = .ok false ↔ key = none ∧ t = .ignoreNone := by
  cases key <;> cases t <;> simp [checkKey]

/-- A key that `__check_key` lets through is the recorded key. -/
theorem checkKey_ok_true_rec {K T : Type} (idx : SearchableIndex K T) (x : T)
    (h : checkKey idx.type (idx.conv x) = .ok true) :
    recordedKey idx x = some (idx.conv x) := by
  cases hcv : idx.conv x <;> cases ht : idx.type <;> rw [hcv, ht] at h <;>
    simp [checkKey] at h <;> simp [recordedKey, hcv, ht]

/-- Not-none indexes record every item at its converter key. -/
theorem recordedKey_of_notNone {K T : Type} (idx : SearchableIndex K T) (x : T)
    (ht : idx.type = IndexType.notNone) : recordedKey idx x = some (idx.conv x) := by
  cases hcv : idx.conv x <;> simp [recordedKey, hcv, ht]

/-- A key accepted by a not-none index is not `None`. -/
theorem checkKey_ok_true_notNone {K : Type} (key : Option K)
    (h : checkKey IndexType.notNone key = .ok true) : key ≠ none := by
  cases key <;> simp [checkKey] at h ⊢

/-- `InvIdx` is preserved by a successful `add_to_index` of a fresh item,
for any data list that gains exactly one copy of the item (only the
memberships and counts of recorded items matter). -/
theorem InvIdx_add_step {K T : Type} [DecidableEq K] [DecidableEq T]
    {idx idx' : SearchableIndex K T} {data data' : List T} {item : T}
    (hinv : InvIdx idx data)
    (hadd : idx.addToIndex item = .ok idx')
    (hfresh : recordedKey idx item ≠ none → dictLookup (idx.conv item) idx.data = none)
    (hmemR : ∀ x, recordedKey idx x ≠ none → (x ∈ data' ↔ x = item ∨ x ∈ data))
    (hcountR : ∀ x, recordedKey idx x ≠ none →
        data'.count x = data.count x + (if x = item then 1 else 0)) :
    InvIdx idx' data' := by
  obtain ⟨hnd, hiff, hcnt, hnn⟩ := hinv
  unfold SearchableIndex.addToIndex at hadd
  cases hc : checkKey idx.type (idx.conv item) with
  | error e =>
    rw [hc] at hadd
    simp at hadd
  | ok b =>
    rw [hc] at hadd
    cases b with
    | false =>
      simp only [Except.ok.injEq] at hadd
      subst hadd
      obtain ⟨hcv, ht⟩ := (checkKey_ok_false_iff idx.type (idx.conv item)).mp hc
      have hrecItem : recordedKey idx item = none := by
        simp [recordedKey, hcv, ht]
      refine ⟨hnd, ?_, ?_, ?_⟩
      · intro k x
        rw [hiff k x]
        constructor
        · rintro ⟨hxd, hrec⟩
          have hrne : recordedKey idx x ≠ none := by
            rw [hrec]
            simp
          exact ⟨(hmemR x hrne).mpr (Or.inr hxd), hrec⟩
        · rintro ⟨hxd2, hrec⟩
          have hrne : recordedKey idx x ≠ none := by
            rw [hrec]
            simp
          rcases (hmemR x hrne).mp hxd2 with hh | hh
          · rw [hh, hrecItem] at hrec
            cases hrec
          · exact ⟨hh, hrec⟩
      · intro x hrne
        have hxne : x ≠ item := fun hh => hrne (by rw [hh, hrecItem])
        rw [hcountR x hrne, if_neg hxne]
        simpa using hcnt x hrne
      · intro htn
        rw [htn] at ht
        cases ht
    | true =>
      simp only [Except.ok.injEq] at hadd
      subst hadd
      have hrecItem : recordedKey idx item = some (idx.conv item) :=
        checkKey_ok_true_rec idx item hc
      have hrneItem : recordedKey idx item ≠ none := by
        rw [hrecItem]
        simp
      have hlook : dictLookup (idx.conv item) idx.data = none := hfresh hrneItem
      have hset : dictSet (idx.conv item) item idx.data
          = idx.data ++ [(idx.conv item, item)] := by
        simp [dictSet, hlook]
      have hnotmem : item ∉ data := by
        intro hmem
        have hbind := (hiff (idx.conv item) item).mpr ⟨hmem, hrecItem⟩
        have hs := dictLookup_isSome_of_mem hbind
        rw [hlook] at hs
        cases hs
      refine ⟨?_, ?_, ?_, ?_⟩
      · show ((dictSet (idx.conv item) item idx.data).map Prod.fst).Nodup
        rw [hset, List.map_append]
        show (List.map Prod.fst idx.data ++ [idx.conv item]).Nodup
        have hknotin : idx.conv item ∉ idx.data.map Prod.fst := by
          intro hmem
          obtain ⟨kv, hkv, hkeq⟩ := List.mem_map.mp hmem
          exact (dictLookup_eq_none_iff _ _).mp hlook kv hkv hkeq
        rw [(List.perm_append_singleton _ _).nodup_iff]
        exact List.nodup_cons.mpr ⟨hknotin, hnd⟩
      · intro k x
        show (k, x) ∈ dictSet (idx.conv item) item idx.data
          ↔ x ∈ data' ∧ recordedKey idx x = some k
        rw [hset, mem_append_binding]
        constructor
        · rintro (hh | ⟨hk, hx⟩)
          · obtain ⟨hxd, hrec⟩ := (hiff k x).mp hh
            have hrne : recordedKey idx x ≠ none := by
              rw [hrec]
              simp
            exact ⟨(hmemR x hrne).mpr (Or.inr hxd), hrec⟩
          · rw [hx, hk]
            exact ⟨(hmemR item hrneItem).mpr (Or.inl rfl), hrecItem⟩
        · rintro ⟨hxd2, hrec⟩
          have hrne : recordedKey idx x ≠ none := by
            rw [hrec]
            simp
          rcases (hmemR x hrne).mp hxd2 with hh | hh
          · right
            refine ⟨?_, hh⟩
            rw [hh, hrecItem] at hrec
            exact ((Option.some.injEq ..).mp hrec).symm
          · exact Or.inl ((hiff k x).mpr ⟨hh, hrec⟩)
      · intro x hrne
        show data'.count x ≤ 1
        rw [hcountR x hrne]
        by_cases hx : x = item
        · rw [if_pos hx]
          have hz : data.count x = 0 := by
            rw [hx]
            exact List.count_eq_zero.mpr hnotmem
          omega
        · rw [if_neg hx]
          have := hcnt x hrne
          omega
      · intro htn x hx2
        have hrne : recordedKey idx x ≠ none := by
          rw [recordedKey_of_notNone idx x htn]
          simp
        rcases (hmemR x hrne).mp hx2 with hh | hh
        · rw [hh]
          rw [htn] at hc
          exact checkKey_ok_true_notNone _ hc
        · exact hnn htn x hh

/-- `InvIdx` is preserved by a successful `drop_from_index` of a present
item, for any data list that loses exactly one copy of that item. -/
theorem InvIdx_drop_step {K T : Type} [DecidableEq K] [DecidableEq T]
    {idx idx1 : SearchableIndex K T} {data data' : List T} {tbr : T}
    (hinv : InvIdx idx data)
    (hdrop : idx.dropFromIndex tbr = .ok idx1)
    (hmemR : ∀ x, recordedKey idx x ≠ none → x ≠ tbr → (x ∈ data' ↔ x ∈ data))
    (hcountR : ∀ x, recordedKey idx x ≠ none →
        data'.count x + (if x = tbr then 1 else 0) = data.count x) :
    InvIdx idx1 data' := by
  obtain ⟨hnd, hiff, hcnt, hnn⟩ := hinv
  unfold SearchableIndex.dropFromIndex at hdrop
  cases hc : checkKey idx.type (idx.conv tbr) with
  | error e =>
    rw [hc] at hdrop
    simp at hdrop
  | ok b =>
    rw [hc] at hdrop
    cases b with
    | false =>
      simp only [Except.ok.injEq] at hdrop
      subst hdrop
      obtain ⟨hcv, ht⟩ := (checkKey_ok_false_iff idx.type (idx.conv tbr)).mp hc
      have hrecT : recordedKey idx tbr = none := by
        simp [recordedKey, hcv, ht]
      refine ⟨hnd, ?_, ?_, ?_⟩
      · intro k x
        rw [hiff k x]
        have hlem : recordedKey idx x = some k → x ≠ tbr := by
          intro hrec hh
          rw [hh, hrecT] at hrec
          cases hrec
        constructor
        · rintro ⟨hxd, hrec⟩
          have hrne : recordedKey idx x ≠ none := by
            rw [hrec]
            simp
          exact ⟨(hmemR x hrne (hlem hrec)).mpr hxd, hrec⟩
        · rintro ⟨hxd2, hrec⟩
          have hrne : recordedKey idx x ≠ none := by
            rw [hrec]
            simp
          exact ⟨(hmemR x hrne (hlem hrec)).mp hxd2, hrec⟩
      · intro x hrne
        have hxne : x ≠ tbr := by
          intro hh
          rw [hh, hrecT] at hrne
          exact hrne rfl
        have h1 := hcountR x hrne
        rw [if_neg hxne] at h1
        have := hcnt x hrne
        omega
      · intro htn
        rw [htn] at ht
        cases ht
    | true =>
      by_cases hl : (dictLookup (idx.conv tbr) idx.data).isSome
      · rw [if_pos hl] at hdrop
        simp only [Except.ok.injEq] at hdrop
        subst hdrop
        have hrecT : recordedKey idx tbr = some (idx.conv tbr) :=
          checkKey_ok_true_rec idx tbr hc
        have hrneT : recordedKey idx tbr ≠ none := by
          rw [hrecT]
          simp
        have htbrnot : tbr ∉ data' := by
          have h1 := hcountR tbr hrneT
          rw [if_pos rfl] at h1
          have h2 := hcnt tbr hrneT
          have : data'.count tbr = 0 := by omega
          exact List.count_eq_zero.mp this
        refine ⟨?_, ?_, ?_, ?_⟩
        · show (((dictErase (idx.conv tbr) idx.data)).map Prod.fst).Nodup
          exact nodup_keys_dictErase _ hnd
        · intro k x
          show (k, x) ∈ dictErase (idx.conv tbr) idx.data
            ↔ x ∈ data' ∧ recordedKey idx x = some k
          rw [mem_dictErase]
          constructor
          · rintro ⟨hh, hkne⟩
            obtain ⟨hxd, hrec⟩ := (hiff k x).mp hh
            have hrne : recordedKey idx x ≠ none := by
              rw [hrec]
              simp
            have hxne : x ≠ tbr := by
              intro hx
              rw [hx, hrecT] at hrec
              exact hkne ((Option.some.injEq ..).mp hrec).symm
            exact ⟨(hmemR x hrne hxne).mpr hxd, hrec⟩
          · rintro ⟨hxd2, hrec⟩
            have hrne : recordedKey idx x ≠ none := by
              rw [hrec]
              simp
            have hxne : x ≠ tbr := by
              intro hx
              rw [hx] at hxd2
              exact htbrnot hxd2
            have hmem := (hiff k x).mpr ⟨(hmemR x hrne hxne).mp hxd2, hrec⟩
            refine ⟨hmem, ?_⟩
            intro hkeq
            have htbrmem : tbr ∈ data := by
              have h1 := hcountR tbr hrneT
              rw [if_pos rfl] at h1
              have h3 : 0 < data.count tbr := by omega
              exact List.count_pos_iff.mp h3
            have hbindT := (hiff (idx.conv tbr) tbr).mpr ⟨htbrmem, hrecT⟩
            have hx1 := dictLookup_of_mem_nodup hnd hmem
            have hx2 := dictLookup_of_mem_nodup hnd hbindT
            rw [hkeq] at hx1
            rw [hx1] at hx2
            exact hxne ((Option.some.injEq ..).mp hx2)
        · intro x hrne
          show data'.count x ≤ 1
          have h1 := hcountR x hrne
          have h2 := hcnt x hrne
          by_cases hx : x = tbr
          · rw [if_pos hx] at h1
            omega
          · rw [if_neg hx] at h1
            omega
        · intro htn x hx2
          by_cases hxt : x = tbr
          · rw [hxt] at hx2
            exact absurd hx2 htbrnot
          · have hrne : recordedKey idx x ≠ none := by
              rw [recordedKey_of_notNone idx x htn]
              simp
            exact hnn htn x ((hmemR x hrne hxt).mp hx2)
      · rw [if_neg hl] at hdrop
        simp at hdrop

/-- A recorded key is always the converter's output. -/
theorem recordedKey_eq_conv {K T : Type} (idx : SearchableIndex K T) (x : T)
    (k : Option K) (h : recordedKey idx x = some k) : k = idx.conv x := by
  cases hcv : idx.conv x <;> cases ht : idx.type <;>
    rw [recordedKey, hcv, ht] at h <;> simp_all

/-- After `check_add` against the entry being replaced and the drop of that
entry, the new item's key is free in the index. -/
theorem fresh_after_checkAdd_drop {K T : Type} [DecidableEq K] [DecidableEq T]
    {idx idx1 : SearchableIndex K T} {data : List T} {item tbr : T}
    (hinv : InvIdx idx data)
    (hchk : idx.checkAdd item (some tbr) = .ok ())
    (hdrop : idx.dropFromIndex tbr = .ok idx1)
    (hrne : recordedKey idx item ≠ none) :
    dictLookup (idx1.conv item) idx1.data = none := by
  obtain ⟨hnd, hiff, hcnt, hnn⟩ := hinv
  obtain ⟨ht1, hc1⟩ := dropFromIndex_preserves hdrop
  rw [hc1]
  unfold SearchableIndex.checkAdd at hchk
  cases hck : checkKey idx.type (idx.conv item) with
  | error e =>
    rw [hck] at hchk
    simp at hchk
  | ok b =>
    rw [hck] at hchk
    cases b with
    | false =>
      obtain ⟨hcv, htt⟩ := (checkKey_ok_false_iff _ _).mp hck
      exact absurd (by simp [recordedKey, hcv, htt]) hrne
    | true =>
      unfold SearchableIndex.dropFromIndex at hdrop
      cases hckT : checkKey idx.type (idx.conv tbr) with
      | error e =>
        rw [hckT] at hdrop
        simp at hdrop
      | ok bT =>
        rw [hckT] at hdrop
        cases hlookI : dictLookup (idx.conv item) idx.data with
        | none =>
          cases bT with
          | false =>
            simp only [Except.ok.injEq] at hdrop
            subst hdrop
            exact hlookI
          | true =>
            by_cases hl : (dictLookup (idx.conv tbr) idx.data).isSome
            · rw [if_pos hl] at hdrop
              simp only [Except.ok.injEq] at hdrop
              subst hdrop
              show dictLookup (idx.conv item) (dictErase (idx.conv tbr) idx.data) = none
              by_cases hkk : idx.conv item = idx.conv tbr
              · rw [hkk]
                exact dictLookup_dictErase_self _ _
              · rw [dictLookup_dictErase_ne _ hkk]
                exact hlookI
            · rw [if_neg hl] at hdrop
              simp at hdrop
        | some z =>
          rw [hlookI] at hchk
          have hz : z = tbr := by
            by_cases hzz : tbr = z
            · exact hzz.symm
            · simp [hzz] at hchk
          subst hz
          have hbind := mem_of_dictLookup hlookI
          obtain ⟨htbrmem, hrecT⟩ := (hiff (idx.conv item) z).mp hbind
          have hkk : idx.conv item = idx.conv z := recordedKey_eq_conv idx z _ hrecT
          cases bT with
          | false =>
            obtain ⟨hcvT, httT⟩ := (checkKey_ok_false_iff _ _).mp hckT
            rw [recordedKey, hcvT, httT] at hrecT
            cases hrecT
          | true =>
            by_cases hl : (dictLookup (idx.conv z) idx.data).isSome
            · rw [if_pos hl] at hdrop
              simp only [Except.ok.injEq] at hdrop
              subst hdrop
              show dictLookup (idx.conv item) (dictErase (idx.conv z) idx.data) = none
              rw [hkk]
              exact dictLookup_dictErase_self _ _
            · rw [if_neg hl] at hdrop
              simp at hdrop

/-- Right-to-left lookup of a pointwise relation. -/
theorem forall₂_mem_right {α β : Type} {R : α → β → Prop} {as : List α} {bs : List β}
    (h : List.Forall₂ R as bs) {b : β} (hb : b ∈ bs) : ∃ a ∈ as, R a b := by
  induction h with
  | nil => simp at hb
  | cons hr hrest ih =>
    rcases List.mem_cons.mp hb with hh | hh
    · subst hh
      exact ⟨_, by simp, hr⟩
    · obtain ⟨a, ham, har⟩ := ih hh
      exact ⟨a, by simp [ham], har⟩

/-- Element count over a cons, with the test on the left. -/
theorem count_cons_eq {T : Type} [DecidableEq T] (a b : T) (l : List T) :
    (b :: l).count a = l.count a + (if a = b then 1 else 0) := by
  by_cases h : a = b
  · simp [List.count_cons, h]
  · have h2 : (b == a) = false := by
      simp
      exact fun hh => h hh.symm
    simp [List.count_cons, h, h2]

/-- `list.insert` splices the item in as one more copy. -/
theorem pyInsertIdx_perm {T : Type} (pos : Nat) (item : T) (l : List T) :
    (pyInsertIdx pos item l).Perm (item :: l) := by
  unfold pyInsertIdx
  by_cases h : pos ≥ l.length
  · rw [if_pos h]
    exact List.perm_append_singleton item l
  · rw [if_neg h]
    exact List.perm_insertIdx item l (Nat.lt_of_not_le h).le

/-- Replacing the slot at `pos` exchanges one copy of the old entry for the
new one: both lists decompose over the same remainder. -/
theorem set_erase_perm {T : Type} (l : List T) (pos : Nat) (item tbr : T)
    (h : l.get? pos = some tbr) :
    l.Perm (tbr :: l.eraseIdx pos) ∧ (l.set pos item).Perm (item :: l.eraseIdx pos) := by
  obtain ⟨hlt, hget⟩ := List.get?_eq_some.mp h
  have hgetE : l[pos] = tbr := hget
  have h1 : l = l.take pos ++ l[pos] :: l.drop (pos + 1) := by
    conv_lhs => rw [← List.take_append_drop pos l]
    rw [List.drop_eq_getElem_cons hlt]
  constructor
  · have h2 : (l.take pos ++ l[pos] :: l.drop (pos + 1)).Perm
        (l[pos] :: (l.take pos ++ l.drop (pos + 1))) := List.perm_middle
    rw [← h1, hgetE] at h2
    rw [List.eraseIdx_eq_take_drop_succ]
    exact h2
  · have h3 : l.set pos item = l.take pos ++ item :: l.drop (pos + 1) :=
      List.set_eq_take_cons_drop item hlt
    rw [h3, List.eraseIdx_eq_take_drop_succ]
    exact List.perm_middle

/-- Removing the slot at `pos` removes one copy of that entry. -/
theorem erase_perm {T : Type} (l : List T) (pos : Nat) (tbd : T)
    (h : l.get? pos = some tbd) : l.Perm (tbd :: l.eraseIdx pos) :=
  (set_erase_perm l pos tbd tbd h).1

/-- `recordedKey` only looks at the policy and the converter. -/
theorem recordedKey_congr {K T : Type} {idx1 idx : SearchableIndex K T}
    (h1 : idx1.type = idx.type) (h2 : idx1.conv = idx.conv) (x : T) :
    recordedKey idx1 x = recordedKey idx x := by
  unfold recordedKey
  rw [h1, h2]

/-- A passed `check_add` with the fresh-insertion sentinel means the key is
free. -/
theorem checkAdd_none_fresh {K T : Type} [DecidableEq K] [DecidableEq T]
    {idx : SearchableIndex K T} {item : T}
    (h : idx.checkAdd item none = .ok ()) (hrne : recordedKey idx item ≠ none) :
    dictLookup (idx.conv item) idx.data = none := by
  unfold SearchableIndex.checkAdd at h
  cases hck : checkKey idx.type (idx.conv item) with
  | error e =>
    rw [hck] at h
    simp at h
  | ok b =>
    rw [hck] at h
    cases b with
    | false =>
      obtain ⟨hcv, htt⟩ := (checkKey_ok_false_iff _ _).mp hck
      exact absurd (by simp [recordedKey, hcv, htt]) hrne
    | true =>
      cases hlook : dictLookup (idx.conv item) idx.data with
      | none => rfl
      | some z =>
        rw [hlook] at h
        simp at h

/-- Under the invariant, dropping a present item from an index cannot
fail. -/
theorem dropFromIndex_ok_of_inv {K T : Type} [DecidableEq K] [DecidableEq T]
    {idx : SearchableIndex K T} {data : List T} {x : T}
    (hinv : InvIdx idx data) (hx : x ∈ data) :
    ∃ idx1, idx.dropFromIndex x = .ok idx1 := by
  obtain ⟨hnd, hiff, hcnt, hnn⟩ := hinv
  unfold SearchableIndex.dropFromIndex
  cases hck : checkKey idx.type (idx.conv x) with
  | error e =>
    have hbad : idx.conv x = none ∧ idx.type = IndexType.notNone := by
      cases hcv : idx.conv x <;> cases ht : idx.type <;> rw [hcv, ht] at hck <;>
        simp [checkKey] at hck
      exact ⟨rfl, rfl⟩
    exact absurd (hnn hbad.2 x hx) (fun hh => hh hbad.1)
  | ok b =>
    cases b with
    | false => exact ⟨idx, rfl⟩
    | true =>
      have hrec : recordedKey idx x = some (idx.conv x) := checkKey_ok_true_rec idx x hck
      have hbind := (hiff (idx.conv x) x).mpr ⟨hx, hrec⟩
      have hsome := dictLookup_isSome_of_mem hbind
      exact ⟨_, by rw [if_pos hsome]⟩

/-- A successful `insert` preserves the representation invariant. -/
theorem Inv_insertAt_ok {K T : Type} [DecidableEq K] [DecidableEq T]
    {l l2 : SearchableList K T} {pos : Nat} {item : T}
    (hinv : l.Inv) (hrun : l.insertAt pos item = .ok l2) : l2.Inv := by
  unfold SearchableList.insertAt at hrun
  cases hchk : checkAddAll l.indices item none with
  | error e =>
    simp only [hchk] at hrun
    simp at hrun
  | ok u =>
    cases u
    simp only [hchk] at hrun
    cases hadd : addToIndexAll l.indices item with
    | error e =>
      simp only [hadd] at hrun
      simp at hrun
    | ok idxs =>
      simp only [hadd] at hrun
      simp only [Except.ok.injEq] at hrun
      subst hrun
      intro idx2 hidx2
      obtain ⟨idx, hidxmem, hrel⟩ := forall₂_mem_right (addToIndexAll_ok_forall hadd) hidx2
      have hperm := pyInsertIdx_perm pos item l.data
      refine InvIdx_add_step (hinv idx hidxmem) hrel
        (checkAdd_none_fresh (checkAddAll_ok_forall hchk idx hidxmem)) ?_ ?_
      · intro x _
        rw [hperm.mem_iff]
        simp [List.mem_cons]
      · intro x _
        rw [hperm.count_eq, count_cons_eq]

/-- A successful `__setitem__` preserves the representation invariant. -/
theorem Inv_setAt_ok {K T : Type} [DecidableEq K] [DecidableEq T]
    {l l2 : SearchableList K T} {pos : Nat} {item : T}
    (hinv : l.Inv) (hrun : l.setAt pos item = .ok l2) : l2.Inv := by
  unfold SearchableList.setAt at hrun
  cases hget : l.data.get? pos with
  | none =>
    rw [hget] at hrun
    simp at hrun
  | some tbr =>
    simp only [hget] at hrun
    cases hchk : checkAddAll l.indices item (some tbr) with
    | error e =>
      simp only [hchk] at hrun
      simp at hrun
    | ok u =>
      cases u
      simp only [hchk] at hrun
      cases hdropall : dropFromIndexAll l.indices tbr with
      | error e =>
        simp only [hdropall] at hrun
        simp at hrun
      | ok idxs1 =>
        simp only [hdropall] at hrun
        cases haddall : addToIndexAll idxs1 item with
        | error e =>
          simp only [haddall] at hrun
          simp at hrun
        | ok idxs2 =>
          simp only [haddall] at hrun
          simp only [Except.ok.injEq] at hrun
          subst hrun
          intro idx2 hidx2
          obtain ⟨idx1, hmem1, hrel2⟩ :=
            forall₂_mem_right (addToIndexAll_ok_forall haddall) hidx2
          obtain ⟨idx, hmem0, hrel1⟩ :=
            forall₂_mem_right (dropFromIndexAll_ok_forall hdropall) hmem1
          obtain ⟨hperm1, hperm2⟩ := set_erase_perm l.data pos item tbr hget
          obtain ⟨hty, hcv⟩ := dropFromIndex_preserves hrel1
          have hinv0 := hinv idx hmem0
          have hca := checkAddAll_ok_forall hchk idx hmem0
          have hinv1 : InvIdx idx1 (l.data.eraseIdx pos) := by
            refine InvIdx_drop_step hinv0 hrel1 ?_ ?_
            · intro x _ hxne
              rw [hperm1.mem_iff, List.mem_cons]
              simp [hxne]
            · intro x _
              rw [hperm1.count_eq, count_cons_eq]
          refine InvIdx_add_step hinv1 hrel2 ?_ ?_ ?_
          · intro hrne1
            rw [recordedKey_congr hty hcv item] at hrne1
            exact fresh_after_checkAdd_drop hinv0 hca hrel1 hrne1
          · intro x _
            rw [hperm2.mem_iff]
            simp [List.mem_cons]
          · intro x _
            rw [hperm2.count_eq, count_cons_eq]

/-- A successful `__delitem__` preserves the representation invariant. -/
theorem Inv_delAt_ok {K T : Type} [DecidableEq K] [DecidableEq T]
    {l l2 : SearchableList K T} {pos : Nat}
    (hinv : l.Inv) (hrun : l.delAt pos = .ok l2) : l2.Inv := by
  unfold SearchableList.delAt at hrun
  cases hget : l.data.get? pos with
  | none =>
    rw [hget] at hrun
    simp at hrun
  | some tbd =>
    simp only [hget] at hrun
    cases hdropall : dropFromIndexAll l.indices tbd with
    | error e =>
      simp only [hdropall] at hrun
      simp at hrun
    | ok idxs1 =>
      simp only [hdropall] at hrun
      simp only [Except.ok.injEq] at hrun
      subst hrun
      intro idx1 hidx1
      obtain ⟨idx, hmem0, hrel1⟩ :=
        forall₂_mem_right (dropFromIndexAll_ok_forall hdropall) hidx1
      have hperm := erase_perm l.data pos tbd hget
      refine InvIdx_drop_step (hinv idx hmem0) hrel1 ?_ ?_
      · intro x _ hxne
        rw [hperm.mem_iff, List.mem_cons]
        simp [hxne]
      · intro x _
        rw [hperm.count_eq, count_cons_eq]

/-- Every operation, applied with Python exception semantics, preserves the
representation invariant. -/
theorem Inv_applyOp {K T : Type} [DecidableEq K] [DecidableEq T]
    (l : SearchableList K T) (op : SLOp K T) (hinv : l.Inv) :
    (l.applyOp op).Inv := by
  unfold SearchableList.applyOp
  cases hrun : l.runOp op with
  | error e => exact hinv
  | ok l2 =>
    cases op with
    | ins pos item => exact Inv_insertAt_ok hinv hrun
    | set pos item => exact Inv_setAt_ok hinv hrun
    | del pos => exact Inv_delAt_ok hinv hrun

/-- A freshly constructed `SearchableList` satisfies the invariant. -/
theorem Inv_mkSearchableList {K T : Type} [DecidableEq T]
    (decls : List (IndexType × (T → Option K))) :
    (mkSearchableList decls).Inv := by
  intro idx hidx
  simp only [mkSearchableList, List.mem_map] at hidx
  obtain ⟨ti, _, hEq⟩ := hidx
  subst hEq
  refine ⟨by simp, ?_, ?_, ?_⟩
  · intro k y
    simp [mkSearchableList]
  · intro y _
    simp [mkSearchableList]
  · intro _ y hy
    simp [mkSearchableList] at hy

/-- Any sequence of operations preserves the invariant. -/
theorem Inv_applyOps {K T : Type} [DecidableEq K] [DecidableEq T]
    (l : SearchableList K T) (ops : List (SLOp K T)) (hinv : l.Inv) :
    (l.applyOps ops).Inv := by
  induction ops generalizing l with
  | nil => exact hinv
  | cons op rest ih => exact ih _ (Inv_applyOp l op hinv)

/-- C8 (amended): on invariant-satisfying lists, inserting or replacing an
item whose key under any index collides with an existing entry other than
the one being replaced fails without modifying the sequence or any index
(all indexes are checked before any mutation); removing an item removes its
key from every index; every operation preserves the representation
invariant, and after any sequence of insert/replace/remove operations from
a fresh list each index maps key `k` to item `x` iff `x` is in the sequence
and the index *records* `x` at `k` — i.e. the extractor gives `k` for `x`,
except that ignore-none indexes do not record items whose key is `None`. -/
theorem claim_C8_searchable_list {K T : Type} [DecidableEq K] [DecidableEq T]
    (l : SearchableList K T) (pos : Nat) (item x : T)
    (decls : List (IndexType × (T → Option K))) (ops : List (SLOp K T)) :
    (l.Inv →
      (∃ idx ∈ l.indices, checkKey idx.type (idx.conv item) = .ok true
        ∧ (dictLookup (idx.conv item) idx.data).isSome = true) →
      exceptIsOk (l.runOp (SLOp.ins pos item)) = false
      ∧ l.applyOp (SLOp.ins pos item) = l)
    ∧ (l.Inv → l.data.get? pos = some x →
      (∃ idx ∈ l.indices, checkKey idx.type (idx.conv item) = .ok true
        ∧ ∃ z, dictLookup (idx.conv item) idx.data = some z ∧ z ≠ x) →
      exceptIsOk (l.runOp (SLOp.set pos item)) = false
      ∧ l.applyOp (SLOp.set pos item) = l)
    ∧ (l.Inv → l.data.get? pos = some x →
      List.Forall₂ (fun idx idx2 => ∀ k, recordedKey idx x = some k →
          dictLookup k idx2.data = none)
        l.indices (l.applyOp (SLOp.del pos)).indices)
    ∧ (∀ op : SLOp K T, l.Inv → (l.applyOp op).Inv)
    ∧ (SearchableList.applyOps (mkSearchableList decls) ops).Inv := by
  refine ⟨?_, ?_, ?_, fun op hinv => Inv_applyOp l op hinv,
    Inv_applyOps _ ops (Inv_mkSearchableList decls)⟩
  · rintro _ ⟨idx, hmem, hck, hsome⟩
    obtain ⟨z, hz⟩ := Option.isSome_iff_exists.mp hsome
    have hca : idx.checkAdd item none
        = .error (.valueError "item with same key already in list") := by
      simp only [SearchableIndex.checkAdd, hck, hz]
      simp
    obtain ⟨e2, herr⟩ := checkAddAll_error_of_mem hmem hca
    have hrunE : l.runOp (SLOp.ins pos item) = .error e2 := by
      show l.insertAt pos item = .error e2
      unfold SearchableList.insertAt
      simp only [herr]
    constructor
    · rw [hrunE]
      rfl
    · unfold SearchableList.applyOp
      rw [hrunE]
  · rintro _ hget ⟨idx, hmem, hck, z, hz, hzx⟩
    have hca : idx.checkAdd item (some x)
        = .error (.valueError "item with same key already in list") := by
      simp only [SearchableIndex.checkAdd, hck, hz]
      have : ¬ x = z := fun hh => hzx hh.symm
      simp [this]
    obtain ⟨e2, herr⟩ := checkAddAll_error_of_mem hmem hca
    have hrunE : l.runOp (SLOp.set pos item) = .error e2 := by
      show l.setAt pos item = .error e2
      unfold SearchableList.setAt
      simp only [hget, herr]
    constructor
    · rw [hrunE]
      rfl
    · unfold SearchableList.applyOp
      rw [hrunE]
  · intro hinv hget
    have hxmem : x ∈ l.data := List.get?_mem hget
    obtain ⟨idxs1, hdropall⟩ := dropFromIndexAll_ok_of_forall
      (fun idx hm => dropFromIndex_ok_of_inv (hinv idx hm) hxmem)
    have happly : l.applyOp (SLOp.del pos)
        = { data := l.data.eraseIdx pos, indices := idxs1 } := by
      unfold SearchableList.applyOp
      have hr : l.runOp (SLOp.del pos)
          = .ok { data := l.data.eraseIdx pos, indices := idxs1 } := by
        show l.delAt pos = _
        unfold SearchableList.delAt
        simp only [hget, hdropall]
      rw [hr]
    rw [happly]
    refine List.Forall₂.imp ?_ (dropFromIndexAll_ok_forall hdropall)
    intro idx idx2 hdropOne k hreck
    have hk := recordedKey_eq_conv idx x k hreck
    subst hk
    unfold SearchableIndex.dropFromIndex at hdropOne
    cases hck : checkKey idx.type (idx.conv x) with
    | error e =>
      rw [hck] at hdropOne
      simp at hdropOne
    | ok b =>
      rw [hck] at hdropOne
      cases b with
      | false =>
        obtain ⟨hcv, htt⟩ := (checkKey_ok_false_iff _ _).mp hck
        rw [recordedKey, hcv, htt] at hreck
        cases hreck
      | true =>
        by_cases hl : (dictLookup (idx.conv x) idx.data).isSome
        · rw [if_pos hl] at hdropOne
          simp only [Except.ok.injEq] at hdropOne
          subst hdropOne
          show dictLookup (idx.conv x) (dictErase (idx.conv x) idx.data) = none
          exact dictLookup_dictErase_self _ _
        · rw [if_neg hl] at hdropOne
          simp at hdropOne

/-- C8 witness: on a one-index list holding the single item `5`, inserting a
second `5` (same key) fails and leaves the list untouched, and the
representation invariant holds after a build-up sequence of operations. -/
theorem claim_C8_searchable_list_witness :
    exceptIsOk ((SearchableList.applyOps
        (mkSearchableList [(IndexType.notNone, fun y : Nat => some y)])
        [SLOp.ins 0 5]).runOp (SLOp.ins 1 5)) = false
    ∧ (SearchableList.applyOps
        (mkSearchableList [(IndexType.notNone, fun y : Nat => some y)])
        [SLOp.ins 0 5]).applyOp (SLOp.ins 1 5)
      = SearchableList.applyOps
        (mkSearchableList [(IndexType.notNone, fun y : Nat => some y)])
        [SLOp.ins 0 5] := by
  have hinv1 := (claim_C8_searchable_list
    (mkSearchableList [(IndexType.notNone, fun y : Nat => some y)]) 0 0 0
    [(IndexType.notNone, fun y : Nat => some y)] [SLOp.ins 0 5]).2.2.2.2
  exact (claim_C8_searchable_list
    (SearchableList.applyOps
      (mkSearchableList [(IndexType.notNone, fun y : Nat => some y)]) [SLOp.ins 0 5])
    1 5 0 [] []).1 hinv1 ⟨_, List.mem_cons_self _ _, rfl, rfl⟩

/-- C8 counterexample: with a single ignore-none index, inserting an item
whose extracted key is `None` succeeds, the item is in the sequence with
extracted key `none`, yet no index maps that key to it — the unrestricted
claimed equivalence fails at that key. -/
theorem claim_C8_searchable_list_counterexample :
    ((mkSearchableList [(IndexType.ignoreNone, fun y : Option Nat => y)]
        : SearchableList Nat (Option Nat)).applyOp (SLOp.ins 0 none)).data = [none]
    ∧ ((fun y : Option Nat => y) none) = none
    ∧ ((mkSearchableList [(IndexType.ignoreNone, fun y : Option Nat => y)]
        : SearchableList Nat (Option Nat)).applyOp (SLOp.ins 0 none)).indices.map
        (fun idx => idx.data) = [[]] :=
  ⟨rfl, rfl, rfl⟩
